import Mathlib

/-!
# simple-sqsd: the entry point `cmd/simplesqsd/simplesqsd.go`

A shallow embedding of `main` and `getEnvInt`.

* A Go `string` is a Lean `String` (UTF-8 text), its bytes being those of its
  UTF-8 encoding; `os.Getenv` is a total function from variable names to
  strings that answers `""` for an unset variable.
* `strconv.Atoi` belongs to the Go standard library.  It is modelled after
  its implementation, with the fast path for short strings and the
  `ParseInt`/`ParseUint` slow path, the error being kept as `ErrSyntax` or
  `ErrRange`.  Its loops run over the characters of the string instead of its
  bytes: a sign or a digit is a one-byte character, and every byte of a longer
  character is at least `0x80`, so both views reject the same strings.
* Go `int` is the 64-bit two's complement integer of the amd64/arm64 ports
  (`strconv.IntSize = 64`); values are kept in `Int` and every arithmetic
  operation of the source is followed by an explicit wrap.
* `time.Duration` is an `int64` count of nanoseconds.
* `main` is a straight-line program over external collaborators.  Its run is
  a list of the externally visible calls it makes (`Event`) together with the
  way the run ends (`Outcome`).  Ordinary log lines are not recorded.
* The health loop `for { http.Get ... }` consumes one probe result per
  iteration from a finite list; when the list is used up before the loop
  breaks, the run ends as `Outcome.polling` (the loop is still going).
-/

namespace SimpleSqsd

/-! ## Machine integers -/

/-- Two's complement wrap of a mathematical integer into `int64`. -/
def wrapInt64 (x : Int) : Int := (x + 9223372036854775808) % 18446744073709551616 - 9223372036854775808

/-- Smallest `int64`. -/
def minInt64 : Int := -9223372036854775808

/-- Largest `int64`. -/
def maxInt64 : Int := 9223372036854775807

/-- Range predicate of `int64` (and of `int` on this platform). -/
def inInt64 (x : Int) : Prop := minInt64 ≤ x ∧ x ≤ maxInt64

instance (x : Int) : Decidable (inInt64 x) := by
  unfold inInt64; exact inferInstance

/-! ## `strconv` (Go standard library) -/

/-- The two error values of `strconv.NumError.Err`. -/
inductive NumError where
  | ErrSyntax
  | ErrRange
  deriving DecidableEq, Repr

deriving instance DecidableEq for Except

/-- Go `len(s)` for a string: its length in bytes. -/
def len (s : String) : Nat := s.utf8ByteSize

/-- Largest `uint64`. -/
def maxUint64 : Nat := 18446744073709551615

/-- The digit loop of `strconv.ParseUint(s, 10, 64)`: `n` is the `uint64`
accumulator.  A byte outside `'0'..'9'` is a syntax error (a letter yields a
digit value of at least 10, which is not below the base); `n >= cutoff` and a
wrapped `n + d` are range errors. -/
def parseUintLoop : List Char → Nat → Except NumError Nat
  | [], n => .ok n
  | c :: cs, n =>
    if 48 ≤ c.toNat ∧ c.toNat ≤ 57 then
      let d := c.toNat - 48
      if n ≥ maxUint64 / 10 + 1 then .error .ErrRange
      else
        let n10 := (n * 10) % 18446744073709551616
        let n1 := (n10 + d) % 18446744073709551616
        if n1 < n10 ∨ n1 > maxUint64 then .error .ErrRange
        else parseUintLoop cs n1
    else .error .ErrSyntax

/-- Model of `strconv.ParseUint(s, 10, 0)` on a 64-bit platform. -/
def ParseUint (s : List Char) : Except NumError Nat :=
  if s = [] then .error .ErrSyntax else parseUintLoop s 0

/-- Whether the string starts with a sign byte, `'+'` or `'-'`. -/
def hasSign (s0 : List Char) : Prop := s0.head? = some '+' ∨ s0.head? = some '-'

instance (s0 : List Char) : Decidable (hasSign s0) := by
  unfold hasSign; exact inferInstance

/-- Whether the string starts with `'-'` (`neg` in `ParseInt`, `s0[0] == '-'` in `Atoi`). -/
def isNeg (s0 : List Char) : Prop := s0.head? = some '-'

instance (s0 : List Char) : Decidable (isNeg s0) := by
  unfold isNeg; exact inferInstance

/-- The string after `s = s[1:]` when it starts with a sign, else unchanged. -/
def stripSign (s0 : List Char) : List Char := if hasSign s0 then s0.tail else s0

/-- The tail of `strconv.ParseInt`: the range checks against
`cutoff = 1 << 63` and the conversion `int64(un)`, negated for `neg`. -/
def parseIntFinish (neg : Prop) [Decidable neg] (un : Nat) : Except NumError Int :=
  if ¬ neg ∧ un ≥ 9223372036854775808 then .error .ErrRange
  else if neg ∧ un > 9223372036854775808 then .error .ErrRange
  else
    if neg then .ok (wrapInt64 (-(wrapInt64 (un : Int)))) else .ok (wrapInt64 (un : Int))

/-- Model of `strconv.ParseInt(s, 10, 0)` on a 64-bit platform.  A syntax error
of `ParseUint` is returned at once; on its range error `un` is `maxUint64`
and the range checks that follow reject it. -/
def ParseInt (s0 : List Char) : Except NumError Int :=
  if s0 = [] then .error .ErrSyntax
  else
    match ParseUint (stripSign s0) with
    | .error .ErrSyntax => .error .ErrSyntax
    | .error .ErrRange => parseIntFinish (isNeg s0) maxUint64
    | .ok un => parseIntFinish (isNeg s0) un

/-- The digit loop of the fast path of `strconv.Atoi`: `ch -= '0'`, a syntax
error for `ch > 9`, else `n = n*10 + int(ch)`. -/
def atoiFastLoop : List Char → Int → Except NumError Int
  | [], n => .ok n
  | c :: cs, n =>
    if 48 ≤ c.toNat ∧ c.toNat ≤ 57 then
      atoiFastLoop cs (wrapInt64 (n * 10 + ((c.toNat - 48 : Nat) : Int)))
    else .error .ErrSyntax

/-- The fast path of `strconv.Atoi`, taken for `0 < len(s) < 19`. -/
def atoiFast (s0 : List Char) : Except NumError Int :=
  if hasSign s0 ∧ (stripSign s0).length < 1 then .error .ErrSyntax
  else
    match atoiFastLoop (stripSign s0) 0 with
    | .error e => .error e
    | .ok n => if isNeg s0 then .ok (wrapInt64 (-n)) else .ok n

/-- Model of `strconv.Atoi` on a 64-bit platform. -/
def Atoi (s : String) : Except NumError Int :=
  if 0 < len s ∧ len s < 19 then atoiFast s.data else ParseInt s.data

/-! ## The program -/

/-- The `config` struct of the source. -/
structure config where
  QueueRegion : String
  QueueURL : String
  QueueMaxMessages : Int
  QueueWaitTime : Int
  HTTPMaxConns : Int
  HTTPURL : String
  HTTPContentType : String
  HTTPTimeout : Int
  AWSEndpoint : String
  HTTPHMACHeader : String
  HMACSecretKey : List UInt8
  HTTPHealthURL : String
  HTTPHealthWait : Int
  HTTPHealthInterval : Int
  HTTPHealthSucessCount : Int
  deriving DecidableEq

/-- The process environment as seen through `os.Getenv`. -/
abbrev Env := String → String

/-- Source: `getEnvInt`. -/
def getEnvInt (env : Env) (key : String) (def_ : Int) : Int :=
  match Atoi (env key) with
  | .error _ => def_
  | .ok val => val

/-- Go conversion `[]byte(s)`: the bytes of the string. -/
def bytes (s : String) : List UInt8 := s.toUTF8.data.toList

/-- Lines 40-59 of `main`: the configuration as loaded from the environment. -/
def loadConfig (env : Env) : config :=
  { QueueRegion := env "SQSD_QUEUE_REGION"
    QueueURL := env "SQSD_QUEUE_URL"
    QueueMaxMessages := getEnvInt env "SQSD_QUEUE_MAX_MSGS" 10
    QueueWaitTime := getEnvInt env "SQSD_QUEUE_WAIT_TIME" 10
    HTTPMaxConns := getEnvInt env "SQSD_HTTP_MAX_CONNS" 50
    HTTPURL := env "SQSD_HTTP_URL"
    HTTPContentType := env "SQSD_HTTP_CONTENT_TYPE"
    HTTPHealthURL := env "SQSD_HTTP_HEALTH_URL"
    HTTPHealthWait := getEnvInt env "SQSD_HTTP_HEALTH_WAIT" 5
    HTTPHealthInterval := getEnvInt env "SQSD_HTTP_HEALTH_INTERVAL" 5
    HTTPHealthSucessCount := getEnvInt env "SQSD_HTTP_HEALTH_SUCCESS_COUNT" 1
    HTTPTimeout := getEnvInt env "SQSD_HTTP_TIMEOUT" 30
    AWSEndpoint := env "SQSD_AWS_ENDPOINT"
    HTTPHMACHeader := env "SQSD_HTTP_HMAC_HEADER"
    HMACSecretKey := bytes (env "SQSD_HMAC_SECRET_KEY") }

/-! ### External collaborators -/

/-- Go `http.Transport`, restricted to the fields `main` sets. -/
structure Transport where
  MaxIdleConns : Int
  MaxIdleConnsPerHost : Int
  deriving DecidableEq

/-- Go `http.Client`, restricted to the fields `main` sets; `Timeout` is a
`time.Duration` in nanoseconds (zero value `0` when left out). -/
structure Client where
  Transport : Transport
  Timeout : Int
  deriving DecidableEq

/-- Modelled from the spec: `supervisor.WorkerConfig`, whose declaration lies in
the `supervisor` package outside the sources at hand - the "immutable
configuration snapshot" with queue identity, batch size, poll wait time,
target URL, content type, HMAC header name and secret key; the field names are
those of the struct literal in `main`. -/
structure WorkerConfig where
  QueueURL : String
  QueueMaxMessages : Int
  QueueWaitTime : Int
  HTTPURL : String
  HTTPContentType : String
  HTTPHMACHeader : String
  HMACSecretKey : List UInt8
  deriving DecidableEq

/-- The fields given to `log.WithFields` for the logger handed to the
Supervisor. -/
structure LogFields where
  queueRegion : String
  queueUrl : String
  httpMaxConns : Int
  httpPath : String
  deriving DecidableEq

/-- The `aws.Config` from which the SQS service is built: region, HTTP client
and the endpoint override, which is set only when `SQSD_AWS_ENDPOINT` is
non-empty. -/
structure SqsConfig where
  Region : String
  HTTPClient : Client
  Endpoint : Option String
  deriving DecidableEq

/-- Result of one `http.Get(healthURL)`: a response with its status code, or a
transport error (then the response is nil). -/
inductive GetResult where
  | response (StatusCode : Int)
  | error (err : String)
  deriving DecidableEq

/-- The externally visible calls of `main`, in program order. -/
inductive Event where
  | Fatal (msg : String)
  | SetLevel (level : Nat)
  | Sleep (d : Int)
  | Get (url : String)
  | NewSession
  | SqsNew (cfg : SqsConfig)
  | NewSupervisor (logger : LogFields) (sqsSvc : SqsConfig) (httpClient : Client)
      (wConf : WorkerConfig)
  | Start (numWorkers : Int)
  | Wait
  deriving DecidableEq

/-- How a run of `main` ends. -/
inductive Outcome where
  /-- One of the `log.Fatal` calls of lines 61-71: the process exits. -/
  | fatalConfig
  /-- The `log.Fatal(err)` of line 82 (unparsable log level): the process exits. -/
  | fatalLogLevel
  /-- The health loop is still polling when the given probe results end. -/
  | polling
  /-- The call `session.Must` panics on a session error. -/
  | panicked
  /-- The call `s.Wait()` returned and `main` returned. -/
  | returned
  deriving DecidableEq

/-- Everything outside the program that a run depends on. -/
structure World where
  /-- The function `os.Getenv`. -/
  env : Env
  /-- The function `logrus.ParseLevel`: the level, or the text of the error. -/
  ParseLevel : String → Except String Nat
  /-- Results of the successive `http.Get(healthURL)` calls. -/
  probes : List GetResult
  /-- Whether `session.NewSessionWithOptions` returns an error. -/
  sessionErr : Bool

/-- Go `time.Second` in nanoseconds. -/
def Second : Int := 1000000000

/-- Go `time.Duration(x) * time.Second` for an `int` value `x`. -/
def seconds (x : Int) : Int := wrapInt64 (x * Second)

/-- Lines 61-71: the three checks in order; the message of the first failing
one, or `none` when all pass. -/
def validate (c : config) : Option String :=
  if len c.QueueRegion = 0 then some "SQSD_QUEUE_REGION cannot be empty"
  else if len c.QueueURL = 0 then some "SQSD_QUEUE_URL cannot be empty"
  else if len c.HTTPURL = 0 then some "SQSD_HTTP_URL cannot be empty"
  else none

/-- The test of line 98: `err == nil && resp.StatusCode == 200`. -/
def probeOK : GetResult → Bool
  | .response code => code == 200
  | .error _ => false

/-- Lines 97-112: the `for` loop of the health gate, started with the current
value of `numSuccesses`.  Returns the calls made, the final `numSuccesses` and
whether the loop reached `break`. -/
def healthLoop (c : config) (healthURL : String) :
    Int → List GetResult → List Event × Int × Bool
  | numSuccesses, [] => ([], numSuccesses, false)
  | numSuccesses, r :: rs =>
    if probeOK r then
      let numSuccesses := wrapInt64 (numSuccesses + 1)
      if numSuccesses = c.HTTPHealthSucessCount then
        ([Event.Get healthURL], numSuccesses, true)
      else
        let rest := healthLoop c healthURL numSuccesses rs
        (Event.Get healthURL :: rest.1, rest.2)
    else
      let rest := healthLoop c healthURL numSuccesses rs
      (Event.Get healthURL :: Event.Sleep (seconds c.HTTPHealthInterval) :: rest.1, rest.2)

/-- Lines 92-114: the pre-start health gate.  Returns the calls made and
whether startup may proceed. -/
def healthGate (c : config) (probes : List GetResult) : List Event × Bool :=
  if len c.HTTPHealthURL ≠ 0 then
    let healthURL := c.HTTPHealthURL
    let r := healthLoop c healthURL 0 probes
    (Event.Sleep (seconds c.HTTPHealthWait) :: r.1, r.2.2)
  else ([], true)

/-- Lines 85-90: the logger fields. -/
def mkLogger (c : config) : LogFields :=
  { queueRegion := c.QueueRegion
    queueUrl := c.QueueURL
    httpMaxConns := c.HTTPMaxConns
    httpPath := c.HTTPURL }

/-- Lines 120-132: the HTTP client of the SQS service and its `aws.Config`. -/
def mkSqsConfig (c : config) : SqsConfig :=
  { Region := c.QueueRegion
    HTTPClient :=
      { Transport := { MaxIdleConns := c.HTTPMaxConns, MaxIdleConnsPerHost := c.HTTPMaxConns }
        Timeout := 0 }
    Endpoint := if len c.AWSEndpoint > 0 then some c.AWSEndpoint else none }

/-- Lines 136-146: the `supervisor.WorkerConfig` literal. -/
def mkWorkerConfig (c : config) : WorkerConfig :=
  { QueueURL := c.QueueURL
    QueueMaxMessages := c.QueueMaxMessages
    QueueWaitTime := c.QueueWaitTime
    HTTPURL := c.HTTPURL
    HTTPContentType := c.HTTPContentType
    HTTPHMACHeader := c.HTTPHMACHeader
    HMACSecretKey := c.HMACSecretKey }

/-- Lines 148-155: the HTTP client used for delivery. -/
def mkHttpClient (c : config) : Client :=
  { Transport := { MaxIdleConns := c.HTTPMaxConns, MaxIdleConnsPerHost := c.HTTPMaxConns }
    Timeout := seconds c.HTTPTimeout }

/-- Lines 116-159: session, clients, Supervisor construction, `Start`, `Wait`. -/
def construct (c : config) (sessionErr : Bool) : List Event × Outcome :=
  if sessionErr then ([Event.NewSession], Outcome.panicked)
  else
    ([Event.NewSession,
      Event.SqsNew (mkSqsConfig c),
      Event.NewSupervisor (mkLogger c) (mkSqsConfig c) (mkHttpClient c) (mkWorkerConfig c),
      Event.Start c.HTTPMaxConns,
      Event.Wait], Outcome.returned)

/-- Lines 73-83: the log level, `"info"` when `LOG_LEVEL` is empty. -/
def logLevel (env : Env) : String :=
  if len (env "LOG_LEVEL") = 0 then "info" else env "LOG_LEVEL"

/-- Source: `main`.  The calls made, in order, and how the run ends. -/
def main (w : World) : List Event × Outcome :=
  let c := loadConfig w.env
  match validate c with
  | some msg => ([Event.Fatal msg], Outcome.fatalConfig)
  | none =>
    match w.ParseLevel (logLevel w.env) with
    | .error err => ([Event.Fatal err], Outcome.fatalLogLevel)
    | .ok parsedLevel =>
      let gate := healthGate c w.probes
      if gate.2 then
        let rest := construct c w.sessionErr
        (Event.SetLevel parsedLevel :: (gate.1 ++ rest.1), rest.2)
      else
        (Event.SetLevel parsedLevel :: gate.1, Outcome.polling)

/-! ### Observations on a run -/

/-- Number of health probes (`http.Get`) in a list of calls. -/
def probesIssued : List Event → Nat
  | [] => 0
  | Event.Get _ :: es => probesIssued es + 1
  | _ :: es => probesIssued es

/-- Go `time.Sleep(d)`: the time slept, in nanoseconds; a negative or zero
duration makes `Sleep` return immediately. -/
def sleepTime (d : Int) : Int := if d ≤ 0 then 0 else d

/-- Total time slept, in nanoseconds, over a list of calls. -/
def totalSleep : List Event → Int
  | [] => 0
  | Event.Sleep d :: es => sleepTime d + totalSleep es
  | _ :: es => totalSleep es

/-- Whether a call constructs or starts the Supervisor. -/
def isSupervisorCall : Event → Bool
  | Event.NewSupervisor _ _ _ _ => true
  | Event.Start _ => true
  | _ => false

/-- Whether a call is `Supervisor.Start`. -/
def isStart : Event → Bool
  | Event.Start _ => true
  | _ => false

/-- Whether a call belongs to the health gate (a probe or a sleep). -/
def isHealthCall : Event → Bool
  | Event.Get _ => true
  | Event.Sleep _ => true
  | _ => false

/-- Number of successful probes in a list of probe results. -/
def countOK (ps : List GetResult) : Nat := ps.countP probeOK

/-- Number of failed probes in a list of probe results. -/
def countFailed (ps : List GetResult) : Nat := ps.countP (fun r => !probeOK r)

/-- The calls of the health loop for a list of probes none of which ends the
loop: a probe each, followed by the retry sleep after a failed one. -/
def loopEvents (healthURL : String) (interval : Int) : List GetResult → List Event
  | [] => []
  | r :: rs =>
    if probeOK r then Event.Get healthURL :: loopEvents healthURL interval rs
    else Event.Get healthURL :: Event.Sleep (seconds interval) :: loopEvents healthURL interval rs

/-- Number of increments of the 64-bit counter `numSuccesses`, starting from 0,
after which it first equals `N`: `N` itself for `N >= 1`, and `2^64 + N` (one
full wrap-around) for `N <= 0`. -/
def successesNeeded (N : Int) : Nat :=
  if 1 ≤ N then N.toNat else (18446744073709551616 + N).toNat

/-- The `http.Client` handed to `supervisor.NewSupervisor` in a list of calls
(that of the first such call), if there is one. -/
def deliveryClient : List Event → Option Client
  | [] => none
  | Event.NewSupervisor _ _ httpClient _ :: _ => some httpClient
  | _ :: es => deliveryClient es

/-- The `WorkerConfig` handed to `supervisor.NewSupervisor` in a list of calls
(that of the first such call), if there is one. -/
def workerConfig : List Event → Option WorkerConfig
  | [] => none
  | Event.NewSupervisor _ _ _ wConf :: _ => some wConf
  | _ :: es => workerConfig es

/-- The four environment variables read for the health gate. -/
def healthKeys : List String :=
  ["SQSD_HTTP_HEALTH_URL", "SQSD_HTTP_HEALTH_WAIT", "SQSD_HTTP_HEALTH_INTERVAL",
   "SQSD_HTTP_HEALTH_SUCCESS_COUNT"]

/-! ### What "parseable as a base-10 integer" means

A second definition, written from the words of the specification rather than
from `strconv`: an optional sign, then one or more decimal digits, the number
so written lying within the range of Go `int`. -/

/-- Whether `c` is one of the decimal digits `'0'` .. `'9'`. -/
def isDecimalDigit (c : Char) : Bool := decide (48 ≤ c.toNat ∧ c.toNat ≤ 57)

/-- The number written by a list of decimal digits, most significant first,
continuing from the number `n` already read. -/
def decimalFrom : List Char → Nat → Nat
  | [], n => n
  | c :: cs, n => decimalFrom cs (n * 10 + (c.toNat - 48))

/-- The integer written by a sign and a list of characters: defined when there
is at least one character, all are decimal digits, and the signed value fits
Go `int`. -/
def signedDecimal (neg : Bool) (ds : List Char) : Option Int :=
  if ds ≠ [] ∧ ds.all isDecimalDigit = true then
    let v : Int := if neg then -((decimalFrom ds 0 : Nat) : Int) else ((decimalFrom ds 0 : Nat) : Int)
    if inInt64 v then some v else none
  else none

/-- The base-10 integer written by a string, if it is parseable as one. -/
def parseBase10 (s : String) : Option Int :=
  match s.data with
  | [] => none
  | c :: cs =>
    if c = '-' then signedDecimal true cs
    else if c = '+' then signedDecimal false cs
    else signedDecimal false (c :: cs)

/-! ### Concrete environments used as examples -/

/-- An environment with only the three required variables set. -/
def baseEnv : Env := fun k =>
  if k = "SQSD_QUEUE_REGION" then "eu-west-1"
  else if k = "SQSD_QUEUE_URL" then "https://sqs.eu-west-1.amazonaws.com/1/jobs"
  else if k = "SQSD_HTTP_URL" then "http://127.0.0.1:8080/jobs"
  else ""

/-- The environment `env` with variable `k` set to `v`. -/
def setenv (env : Env) (k v : String) : Env := fun x => if x = k then v else env x

/-- A `ParseLevel` that accepts every level name. -/
def anyLevel : String → Except String Nat := fun _ => .ok 4

/-- The world of `baseEnv`: no health URL, no session error. -/
def baseWorld : World :=
  { env := baseEnv, ParseLevel := anyLevel, probes := [], sessionErr := false }

/-- An environment with a health URL and a success count of 2. -/
def healthEnv : Env :=
  setenv (setenv baseEnv "SQSD_HTTP_HEALTH_URL" "http://127.0.0.1:8080/health")
    "SQSD_HTTP_HEALTH_SUCCESS_COUNT" "2"

/-- The world of `healthEnv` with the given probe results. -/
def healthWorld (probes : List GetResult) : World :=
  { env := healthEnv, ParseLevel := anyLevel, probes := probes, sessionErr := false }

/-- The environment `healthEnv` with the success count set to 0. -/
def zeroCountEnv : Env := setenv healthEnv "SQSD_HTTP_HEALTH_SUCCESS_COUNT" "0"

/-- The world of `zeroCountEnv` with the given probe results. -/
def zeroCountWorld (probes : List GetResult) : World :=
  { env := zeroCountEnv, ParseLevel := anyLevel, probes := probes, sessionErr := false }

/-- The environment `healthEnv` with a wait of 3 s and an interval of 7 s. -/
def sleepEnv : Env :=
  setenv (setenv healthEnv "SQSD_HTTP_HEALTH_WAIT" "3") "SQSD_HTTP_HEALTH_INTERVAL" "7"

/-- The environment `healthEnv` with a wait of -1 s. -/
def negWaitEnv : Env := setenv healthEnv "SQSD_HTTP_HEALTH_WAIT" "-1"

/-- The environment `healthEnv` with a wait of 9223372037 s. -/
def bigWaitEnv : Env := setenv healthEnv "SQSD_HTTP_HEALTH_WAIT" "9223372037"

/-- The world of `baseEnv` with an HTTP timeout of 9223372037 s. -/
def bigTimeoutWorld : World :=
  { baseWorld with env := setenv baseEnv "SQSD_HTTP_TIMEOUT" "9223372037" }

/-! ## Lemmas -/

theorem len_eq_zero_iff (s : String) : len s = 0 ↔ s = "" := by
  obtain ⟨l⟩ := s
  cases l with
  | nil => exact ⟨fun _ => rfl, fun _ => rfl⟩
  | cons c cs =>
    constructor
    · intro h
      have : 0 < c.utf8Size := Char.utf8Size_pos c
      simp [len, String.utf8ByteSize, String.utf8ByteSize.go] at h
      omega
    · intro h
      exact absurd (congrArg String.data h) (by simp)

theorem bytes_eq_nil_iff (s : String) : bytes s = [] ↔ s = "" := by
  obtain ⟨l⟩ := s
  cases l with
  | nil => exact ⟨fun _ => rfl, fun _ => rfl⟩
  | cons c cs =>
    constructor
    · intro h
      simp [bytes, String.toUTF8] at h
      have h1 := congrArg List.length h.1
      have h2 : 0 < c.utf8Size := Char.utf8Size_pos c
      simp at h1
      omega
    · intro h
      exact absurd (congrArg String.data h) (by simp)

theorem wrapInt64_inInt64 (x : Int) : inInt64 (wrapInt64 x) := by
  unfold inInt64 minInt64 maxInt64 wrapInt64
  omega

theorem wrapInt64_succ (j : Int) : wrapInt64 (wrapInt64 j + 1) = wrapInt64 (j + 1) := by
  unfold wrapInt64
  omega

theorem wrapInt64_ne_of_lt_needed {N : Int} (hN : inInt64 N) (j : Nat)
    (h : j + 1 < successesNeeded N) : wrapInt64 ((j : Int) + 1) ≠ N := by
  unfold inInt64 minInt64 maxInt64 at hN
  unfold successesNeeded at h
  unfold wrapInt64
  split at h <;> omega

theorem wrapInt64_needed {N : Int} (hN : inInt64 N) :
    wrapInt64 ((successesNeeded N : Nat) : Int) = N := by
  unfold inInt64 minInt64 maxInt64 at hN
  unfold successesNeeded wrapInt64
  split <;> omega

theorem successesNeeded_pos (N : Int) (hN : inInt64 N) : 0 < successesNeeded N := by
  unfold inInt64 minInt64 maxInt64 at hN
  unfold successesNeeded
  split <;> omega

theorem healthLoop_polling (c : config) (url : String) (hN : inInt64 c.HTTPHealthSucessCount) :
    ∀ (ps : List GetResult) (j : Nat),
      j + countOK ps < successesNeeded c.HTTPHealthSucessCount →
      healthLoop c url (wrapInt64 j) ps =
        (loopEvents url c.HTTPHealthInterval ps, wrapInt64 ((j + countOK ps : Nat) : Int), false) := by
  intro ps
  induction ps with
  | nil => intro j _; simp [healthLoop, loopEvents, countOK]
  | cons r rs ih =>
    intro j h
    by_cases hr : probeOK r = true
    · have hc : countOK (r :: rs) = countOK rs + 1 := by simp [countOK, hr]
      rw [hc] at h ⊢
      have hne : wrapInt64 ((j : Int) + 1) ≠ c.HTTPHealthSucessCount :=
        wrapInt64_ne_of_lt_needed hN j (by omega)
      have ih' := ih (j + 1) (by omega)
      have e1 : ((j + 1 : Nat) : Int) = (j : Int) + 1 := by push_cast; rfl
      rw [e1] at ih'
      have e2 : j + 1 + countOK rs = j + (countOK rs + 1) := by omega
      rw [e2] at ih'
      simp only [healthLoop, hr, if_true, wrapInt64_succ, hne, if_false, loopEvents, ih']
    · have hc : countOK (r :: rs) = countOK rs := by simp [countOK, hr]
      rw [hc] at h ⊢
      have ih' := ih j h
      simp only [healthLoop, hr, loopEvents, ih']
      simp

theorem healthLoop_exit (c : config) (url : String) (hN : inInt64 c.HTTPHealthSucessCount) :
    ∀ (pre : List GetResult) (j : Nat) (r : GetResult) (post : List GetResult),
      j + countOK pre + 1 = successesNeeded c.HTTPHealthSucessCount →
      probeOK r = true →
      healthLoop c url (wrapInt64 j) (pre ++ r :: post) =
        (loopEvents url c.HTTPHealthInterval pre ++ [Event.Get url],
          c.HTTPHealthSucessCount, true) := by
  intro pre
  induction pre with
  | nil =>
    intro j r post h hr
    have hj : ((j : Int) + 1) = ((successesNeeded c.HTTPHealthSucessCount : Nat) : Int) := by
      simp [countOK] at h
      rw [← h]; push_cast; rfl
    have : wrapInt64 ((j : Int) + 1) = c.HTTPHealthSucessCount := by
      rw [hj]; exact wrapInt64_needed hN
    simp [healthLoop, hr, wrapInt64_succ, this, loopEvents]
  | cons p ps ih =>
    intro j r post h hr
    by_cases hp : probeOK p = true
    · have hc : countOK (p :: ps) = countOK ps + 1 := by simp [countOK, hp]
      rw [hc] at h
      have hne : wrapInt64 ((j : Int) + 1) ≠ c.HTTPHealthSucessCount :=
        wrapInt64_ne_of_lt_needed hN j (by omega)
      have ih' := ih (j + 1) r post (by omega) hr
      have e1 : ((j + 1 : Nat) : Int) = (j : Int) + 1 := by push_cast; rfl
      rw [e1] at ih'
      have e : (p :: ps) ++ r :: post = p :: (ps ++ r :: post) := rfl
      rw [e]
      simp only [healthLoop, hp, if_true, wrapInt64_succ, hne, if_false, loopEvents]
      rw [ih']
      rfl
    · have hc : countOK (p :: ps) = countOK ps := by simp [countOK, hp]
      rw [hc] at h
      have ih' := ih j r post h hr
      have e : (p :: ps) ++ r :: post = p :: (ps ++ r :: post) := rfl
      rw [e]
      simp only [healthLoop, hp, loopEvents]
      rw [ih']
      simp

theorem exists_nth_success (n : Nat) :
    ∀ ps : List GetResult, n < countOK ps →
      ∃ pre r post, ps = pre ++ r :: post ∧ probeOK r = true ∧ countOK pre = n := by
  intro ps
  induction ps generalizing n with
  | nil => intro h; simp [countOK] at h
  | cons p ps ih =>
    intro h
    by_cases hp : probeOK p = true
    · have hc : countOK (p :: ps) = countOK ps + 1 := by simp [countOK, hp]
      rw [hc] at h
      cases n with
      | zero => exact ⟨[], p, ps, rfl, hp, by simp [countOK]⟩
      | succ m =>
        obtain ⟨pre, r, post, e, hr, hcnt⟩ := ih m (by omega)
        refine ⟨p :: pre, r, post, by simp [e], hr, ?_⟩
        simp [countOK, hp] at hcnt ⊢
        exact hcnt
    · have hc : countOK (p :: ps) = countOK ps := by simp [countOK, hp]
      rw [hc] at h
      obtain ⟨pre, r, post, e, hr, hcnt⟩ := ih n h
      refine ⟨p :: pre, r, post, by simp [e], hr, ?_⟩
      simp [countOK, hp] at hcnt ⊢
      exact hcnt

theorem probesIssued_append (xs ys : List Event) :
    probesIssued (xs ++ ys) = probesIssued xs + probesIssued ys := by
  induction xs with
  | nil => simp [probesIssued]
  | cons e es ih => cases e <;> simp [probesIssued, ih]; omega

theorem totalSleep_append (xs ys : List Event) :
    totalSleep (xs ++ ys) = totalSleep xs + totalSleep ys := by
  induction xs with
  | nil => simp [totalSleep]
  | cons e es ih => cases e <;> simp [totalSleep, ih]; omega

theorem probesIssued_loopEvents (url : String) (i : Int) (ps : List GetResult) :
    probesIssued (loopEvents url i ps) = ps.length := by
  induction ps with
  | nil => rfl
  | cons r rs ih => by_cases hr : probeOK r = true <;> simp [loopEvents, hr, probesIssued, ih]

theorem totalSleep_loopEvents (url : String) (i : Int) (ps : List GetResult) :
    totalSleep (loopEvents url i ps) = (countFailed ps : Int) * sleepTime (seconds i) := by
  induction ps with
  | nil => simp [loopEvents, totalSleep, countFailed]
  | cons r rs ih =>
    by_cases hr : probeOK r = true
    · simp [loopEvents, hr, totalSleep, ih, countFailed]
    · simp [loopEvents, hr, totalSleep, ih, countFailed]
      unfold countFailed at ih
      ring

theorem atoiFastLoop_inInt64 :
    ∀ (cs : List Char) (n v : Int), inInt64 n → atoiFastLoop cs n = .ok v → inInt64 v := by
  intro cs
  induction cs with
  | nil =>
    intro n v hn h
    simp only [atoiFastLoop, Except.ok.injEq] at h
    exact h ▸ hn
  | cons c cs ih =>
    intro n v _ h
    simp only [atoiFastLoop] at h
    split at h
    · exact ih _ v (wrapInt64_inInt64 _) h
    · cases h

theorem atoiFast_inInt64 (s : List Char) (v : Int) (h : atoiFast s = .ok v) : inInt64 v := by
  unfold atoiFast at h
  split at h
  · cases h
  · split at h
    · cases h
    · rename_i n hn
      have hr : inInt64 n :=
        atoiFastLoop_inInt64 _ 0 n (by unfold inInt64 minInt64 maxInt64; omega) hn
      split at h
      · injection h with h; subst h; exact wrapInt64_inInt64 _
      · injection h with h; subst h; exact hr

theorem parseIntFinish_inInt64 (neg : Prop) [Decidable neg] (un : Nat) (v : Int)
    (h : parseIntFinish neg un = .ok v) : inInt64 v := by
  unfold parseIntFinish at h
  split at h
  · cases h
  · split at h
    · cases h
    · split at h <;> (injection h with h; subst h; exact wrapInt64_inInt64 _)

theorem ParseInt_inInt64 (s : List Char) (v : Int) (h : ParseInt s = .ok v) : inInt64 v := by
  unfold ParseInt at h
  split at h
  · cases h
  · split at h
    · cases h
    · exact parseIntFinish_inInt64 _ _ v h
    · exact parseIntFinish_inInt64 _ _ v h

theorem Atoi_inInt64 (s : String) (v : Int) (h : Atoi s = .ok v) : inInt64 v := by
  unfold Atoi at h
  split at h
  · exact atoiFast_inInt64 _ v h
  · exact ParseInt_inInt64 _ v h

theorem getEnvInt_inInt64 (env : Env) (key : String) (d : Int) (hd : inInt64 d) :
    inInt64 (getEnvInt env key d) := by
  unfold getEnvInt
  split
  · exact hd
  · rename_i v hv
    exact Atoi_inInt64 _ v hv

theorem loadConfig_successCount_inInt64 (env : Env) :
    inInt64 (loadConfig env).HTTPHealthSucessCount :=
  getEnvInt_inInt64 env _ 1 (by unfold inInt64 minInt64 maxInt64; omega)

theorem healthLoop_isHealthCall (c : config) (url : String) :
    ∀ (ps : List GetResult) (n : Int), ∀ e ∈ (healthLoop c url n ps).1, isHealthCall e = true := by
  intro ps
  induction ps with
  | nil => intro n e he; simp [healthLoop] at he
  | cons r rs ih =>
    intro n e he
    unfold healthLoop at he
    split at he
    · dsimp only at he
      split at he
      · simp only [List.mem_singleton] at he
        subst he; rfl
      · simp only [List.mem_cons] at he
        rcases he with rfl | h
        · rfl
        · exact ih _ e h
    · simp only [List.mem_cons] at he
      rcases he with rfl | rfl | h
      · rfl
      · rfl
      · exact ih _ e h

theorem healthGate_isHealthCall (c : config) (ps : List GetResult) :
    ∀ e ∈ (healthGate c ps).1, isHealthCall e = true := by
  intro e he
  unfold healthGate at he
  split at he
  · simp only [List.mem_cons] at he
    rcases he with rfl | h
    · rfl
    · exact healthLoop_isHealthCall c _ _ _ e h
  · simp at he

/-- The two ways the health gate can stand after a finite list of probes, for
a configured health URL: still polling (fewer successes than needed), or exited
at the probe that brought the needed number of successes. -/
theorem healthGate_cases (c : config) (hN : inInt64 c.HTTPHealthSucessCount)
    (hurl : c.HTTPHealthURL ≠ "") (ps : List GetResult) :
    (countOK ps < successesNeeded c.HTTPHealthSucessCount ∧
      healthGate c ps =
        (Event.Sleep (seconds c.HTTPHealthWait) ::
          loopEvents c.HTTPHealthURL c.HTTPHealthInterval ps, false)) ∨
    (∃ pre r post, ps = pre ++ r :: post ∧ probeOK r = true ∧
      countOK pre + 1 = successesNeeded c.HTTPHealthSucessCount ∧
      healthGate c ps =
        (Event.Sleep (seconds c.HTTPHealthWait) ::
          (loopEvents c.HTTPHealthURL c.HTTPHealthInterval pre ++
            [Event.Get c.HTTPHealthURL]), true)) := by
  have hlen : len c.HTTPHealthURL ≠ 0 := fun h => hurl ((len_eq_zero_iff _).1 h)
  have hpos := successesNeeded_pos _ hN
  have hz : wrapInt64 ((0 : Nat) : Int) = 0 := by
    unfold wrapInt64; omega
  by_cases hlt : countOK ps < successesNeeded c.HTTPHealthSucessCount
  · left
    refine ⟨hlt, ?_⟩
    have h := healthLoop_polling c c.HTTPHealthURL hN ps 0 (by omega)
    rw [hz] at h
    simp only [healthGate, if_pos hlen, h]
  · right
    obtain ⟨pre, r, post, e, hr, hcnt⟩ :=
      exists_nth_success (successesNeeded c.HTTPHealthSucessCount - 1) ps (by omega)
    refine ⟨pre, r, post, e, hr, by omega, ?_⟩
    have h := healthLoop_exit c c.HTTPHealthURL hN pre 0 r post (by omega) hr
    rw [hz] at h
    simp only [healthGate, if_pos hlen, e, h]

theorem healthGate_no_url (c : config) (hurl : c.HTTPHealthURL = "") (ps : List GetResult) :
    healthGate c ps = ([], true) := by
  unfold healthGate
  rw [if_neg]
  intro h
  exact h ((len_eq_zero_iff _).2 hurl)

theorem validate_eq (c : config) :
    validate c =
      if c.QueueRegion = "" then some "SQSD_QUEUE_REGION cannot be empty"
      else if c.QueueURL = "" then some "SQSD_QUEUE_URL cannot be empty"
      else if c.HTTPURL = "" then some "SQSD_HTTP_URL cannot be empty"
      else none := by
  unfold validate
  simp only [len_eq_zero_iff]

theorem not_supervisor_of_health {e : Event} (h : isHealthCall e = true) :
    isSupervisorCall e = false := by
  cases e <;> simp [isHealthCall, isSupervisorCall] at h ⊢

/-- The five ways a run of `main` can go. -/
theorem main_cases (w : World) :
    (∃ msg, validate (loadConfig w.env) = some msg ∧
      main w = ([Event.Fatal msg], Outcome.fatalConfig)) ∨
    (validate (loadConfig w.env) = none ∧
      ∃ err, main w = ([Event.Fatal err], Outcome.fatalLogLevel)) ∨
    (validate (loadConfig w.env) = none ∧
      (healthGate (loadConfig w.env) w.probes).2 = false ∧
      ∃ l, main w =
        (Event.SetLevel l :: (healthGate (loadConfig w.env) w.probes).1, Outcome.polling)) ∨
    (validate (loadConfig w.env) = none ∧
      (healthGate (loadConfig w.env) w.probes).2 = true ∧
      ∃ l, main w =
        (Event.SetLevel l :: ((healthGate (loadConfig w.env) w.probes).1 ++ [Event.NewSession]),
          Outcome.panicked)) ∨
    (validate (loadConfig w.env) = none ∧
      (healthGate (loadConfig w.env) w.probes).2 = true ∧
      ∃ l, main w =
        (Event.SetLevel l :: ((healthGate (loadConfig w.env) w.probes).1 ++
          [Event.NewSession,
           Event.SqsNew (mkSqsConfig (loadConfig w.env)),
           Event.NewSupervisor (mkLogger (loadConfig w.env)) (mkSqsConfig (loadConfig w.env))
             (mkHttpClient (loadConfig w.env)) (mkWorkerConfig (loadConfig w.env)),
           Event.Start (loadConfig w.env).HTTPMaxConns,
           Event.Wait]), Outcome.returned)) := by
  cases hv : validate (loadConfig w.env) with
  | some msg =>
    left
    exact ⟨msg, rfl, by simp only [main, hv]⟩
  | none =>
    right
    cases hl : w.ParseLevel (logLevel w.env) with
    | error err =>
      left
      exact ⟨rfl, err, by simp only [main, hv, hl]⟩
    | ok l =>
      right
      cases hg : (healthGate (loadConfig w.env) w.probes).2 with
      | false =>
        left
        refine ⟨rfl, rfl, l, ?_⟩
        simp only [main, hv, hl, hg]
        simp
      | true =>
        right
        cases hs : w.sessionErr with
        | true =>
          left
          refine ⟨rfl, rfl, l, ?_⟩
          simp only [main, hv, hl, hg, construct, hs]
          simp
        | false =>
          right
          refine ⟨rfl, rfl, l, ?_⟩
          simp only [main, hv, hl, hg, construct, hs]
          simp

theorem filter_isStart_of_health (xs : List Event) (h : ∀ e ∈ xs, isHealthCall e = true) :
    xs.filter isStart = [] := by
  rw [List.filter_eq_nil_iff]
  intro e he
  have := h e he
  cases e <;> simp [isHealthCall, isStart] at this ⊢

theorem filter_isSupervisorCall_of_health (xs : List Event)
    (h : ∀ e ∈ xs, isHealthCall e = true) : xs.filter isSupervisorCall = [] := by
  rw [List.filter_eq_nil_iff]
  intro e he
  simp [not_supervisor_of_health (h e he)]

theorem deliveryClient_append_of_health (xs ys : List Event)
    (h : ∀ e ∈ xs, isHealthCall e = true) : deliveryClient (xs ++ ys) = deliveryClient ys := by
  induction xs with
  | nil => rfl
  | cons e es ih =>
    have he := h e (List.mem_cons_self _ _)
    have ih' := ih (fun x hx => h x (List.mem_cons_of_mem _ hx))
    cases e <;> simp [isHealthCall] at he <;> simpa [deliveryClient] using ih'

theorem workerConfig_append_of_health (xs ys : List Event)
    (h : ∀ e ∈ xs, isHealthCall e = true) : workerConfig (xs ++ ys) = workerConfig ys := by
  induction xs with
  | nil => rfl
  | cons e es ih =>
    have he := h e (List.mem_cons_self _ _)
    have ih' := ih (fun x hx => h x (List.mem_cons_of_mem _ hx))
    cases e <;> simp [isHealthCall] at he <;> simpa [workerConfig] using ih'

theorem getEnvInt_empty (env : Env) (key : String) (d : Int) (h : env key = "") :
    getEnvInt env key d = d := by
  unfold getEnvInt
  rw [h]
  rfl

/-- What a run that contains a Supervisor call looks like. -/
theorem main_of_supervisorCall (w : World) (h : ∃ e ∈ (main w).1, isSupervisorCall e = true) :
    validate (loadConfig w.env) = none ∧
    (healthGate (loadConfig w.env) w.probes).2 = true ∧
    ∃ l, main w =
      (Event.SetLevel l :: ((healthGate (loadConfig w.env) w.probes).1 ++
        [Event.NewSession,
         Event.SqsNew (mkSqsConfig (loadConfig w.env)),
         Event.NewSupervisor (mkLogger (loadConfig w.env)) (mkSqsConfig (loadConfig w.env))
           (mkHttpClient (loadConfig w.env)) (mkWorkerConfig (loadConfig w.env)),
         Event.Start (loadConfig w.env).HTTPMaxConns,
         Event.Wait]), Outcome.returned) := by
  obtain ⟨e, he, hs⟩ := h
  have hg := healthGate_isHealthCall (loadConfig w.env) w.probes
  rcases main_cases w with ⟨msg, -, h⟩ | ⟨-, err, h⟩ | ⟨-, -, l, h⟩ | ⟨-, -, l, h⟩ |
    ⟨hn, hgate, l, h⟩
  · rw [h] at he
    simp only [List.mem_singleton] at he
    subst he
    simp [isSupervisorCall] at hs
  · rw [h] at he
    simp only [List.mem_singleton] at he
    subst he
    simp [isSupervisorCall] at hs
  · rw [h] at he
    simp only [List.mem_cons] at he
    rcases he with rfl | he
    · simp [isSupervisorCall] at hs
    · rw [not_supervisor_of_health (hg e he)] at hs
      cases hs
  · rw [h] at he
    simp only [List.mem_cons, List.mem_append, List.mem_singleton, List.not_mem_nil, or_false] at he
    rcases he with rfl | he | rfl
    · simp [isSupervisorCall] at hs
    · rw [not_supervisor_of_health (hg e he)] at hs
      cases hs
    · simp [isSupervisorCall] at hs
  · exact ⟨hn, hgate, l, h⟩

/-- The Supervisor calls of a run that contains one. -/
theorem main_supervisorCalls (w : World) (h : ∃ e ∈ (main w).1, isSupervisorCall e = true) :
    (main w).1.filter isSupervisorCall =
      [Event.NewSupervisor (mkLogger (loadConfig w.env)) (mkSqsConfig (loadConfig w.env))
         (mkHttpClient (loadConfig w.env)) (mkWorkerConfig (loadConfig w.env)),
       Event.Start (loadConfig w.env).HTTPMaxConns] ∧
    (main w).1.filter isStart = [Event.Start (loadConfig w.env).HTTPMaxConns] ∧
    deliveryClient (main w).1 = some (mkHttpClient (loadConfig w.env)) ∧
    workerConfig (main w).1 = some (mkWorkerConfig (loadConfig w.env)) := by
  obtain ⟨-, -, l, hm⟩ := main_of_supervisorCall w h
  have hg := healthGate_isHealthCall (loadConfig w.env) w.probes
  rw [hm]
  refine ⟨?_, ?_, ?_, ?_⟩
  · simp [List.filter_cons, isSupervisorCall, filter_isSupervisorCall_of_health _ hg]
  · simp [List.filter_cons, isStart, filter_isStart_of_health _ hg]
  · simp only [deliveryClient]
    rw [deliveryClient_append_of_health _ _ hg]
    rfl
  · simp only [workerConfig]
    rw [workerConfig_append_of_health _ _ hg]
    rfl

/-- A run without Supervisor call hands out no delivery client and no worker config. -/
theorem main_no_supervisorCall (w : World) (h : ¬ ∃ e ∈ (main w).1, isSupervisorCall e = true) :
    deliveryClient (main w).1 = none ∧ workerConfig (main w).1 = none := by
  have key : ∀ xs : List Event, (∀ e ∈ xs, isSupervisorCall e = false) →
      deliveryClient xs = none ∧ workerConfig xs = none := by
    intro xs
    induction xs with
    | nil => intro _; exact ⟨rfl, rfl⟩
    | cons e es ih =>
      intro hx
      have he := hx e (List.mem_cons_self _ _)
      have ih' := ih (fun x hx' => hx x (List.mem_cons_of_mem _ hx'))
      cases e <;> simp [isSupervisorCall] at he <;> simpa [deliveryClient, workerConfig] using ih'
  apply key
  intro e he
  by_contra hc
  exact h ⟨e, he, by simpa using hc⟩

theorem healthGate_polling (c : config) (hN : inInt64 c.HTTPHealthSucessCount)
    (hurl : c.HTTPHealthURL ≠ "") (ps : List GetResult)
    (hlt : countOK ps < successesNeeded c.HTTPHealthSucessCount) :
    healthGate c ps =
      (Event.Sleep (seconds c.HTTPHealthWait) ::
        loopEvents c.HTTPHealthURL c.HTTPHealthInterval ps, false) := by
  have hlen : len c.HTTPHealthURL ≠ 0 := fun h => hurl ((len_eq_zero_iff _).1 h)
  have hz : wrapInt64 ((0 : Nat) : Int) = 0 := by
    unfold wrapInt64; omega
  have h := healthLoop_polling c c.HTTPHealthURL hN ps 0 (by omega)
  rw [hz] at h
  simp only [healthGate, if_pos hlen, h]

theorem healthGate_exit (c : config) (hN : inInt64 c.HTTPHealthSucessCount)
    (hurl : c.HTTPHealthURL ≠ "") (pre : List GetResult) (r : GetResult)
    (post : List GetResult) (hr : probeOK r = true)
    (hcnt : countOK pre + 1 = successesNeeded c.HTTPHealthSucessCount) :
    healthGate c (pre ++ r :: post) =
      (Event.Sleep (seconds c.HTTPHealthWait) ::
        (loopEvents c.HTTPHealthURL c.HTTPHealthInterval pre ++
          [Event.Get c.HTTPHealthURL]), true) := by
  have hlen : len c.HTTPHealthURL ≠ 0 := fun h => hurl ((len_eq_zero_iff _).1 h)
  have hz : wrapInt64 ((0 : Nat) : Int) = 0 := by
    unfold wrapInt64; omega
  have h := healthLoop_exit c c.HTTPHealthURL hN pre 0 r post (by omega) hr
  rw [hz] at h
  simp only [healthGate, if_pos hlen, h]

theorem successesNeeded_of_pos {N : Int} (h : 1 ≤ N) : ((successesNeeded N : Nat) : Int) = N := by
  unfold successesNeeded
  rw [if_pos h]
  omega

theorem successesNeeded_of_nonpos {N : Int} (h : N ≤ 0) (hN : inInt64 N) :
    ((successesNeeded N : Nat) : Int) = 18446744073709551616 + N := by
  unfold inInt64 minInt64 maxInt64 at hN
  unfold successesNeeded
  rw [if_neg (by omega)]
  omega

theorem countOK_snoc (pre : List GetResult) (r : GetResult) (hr : probeOK r = true) :
    countOK (pre ++ [r]) = countOK pre + 1 := by
  simp [countOK, hr]

theorem countFailed_snoc (pre : List GetResult) (r : GetResult) (hr : probeOK r = true) :
    countFailed (pre ++ [r]) = countFailed pre := by
  simp [countFailed, hr]

theorem sleepTime_seconds {x : Int} (h0 : 0 ≤ x) (h1 : x ≤ 9223372036) :
    sleepTime (seconds x) = x * 1000000000 := by
  have hs : seconds x = x * 1000000000 := by
    unfold seconds Second wrapInt64
    omega
  rw [hs]
  unfold sleepTime
  split <;> omega

theorem main_returned_of (w : World) (hv : validate (loadConfig w.env) = none)
    (l : Nat) (hl : w.ParseLevel (logLevel w.env) = .ok l)
    (hg : (healthGate (loadConfig w.env) w.probes).2 = true) (hs : w.sessionErr = false) :
    (main w).2 = Outcome.returned ∧ Event.Start (loadConfig w.env).HTTPMaxConns ∈ (main w).1 := by
  simp only [main, hv, hl, hg, construct, hs]
  simp

theorem countOK_replicate_ok (n : Nat) :
    countOK (List.replicate n (GetResult.response 200)) = n := by
  unfold countOK
  rw [List.countP_replicate]
  rfl

theorem le_decimalFrom : ∀ (cs : List Char) (n : Nat), n ≤ decimalFrom cs n := by
  intro cs
  induction cs with
  | nil => intro n; exact Nat.le_refl _
  | cons c cs ih =>
    intro n
    have := ih (n * 10 + (c.toNat - 48))
    show n ≤ decimalFrom cs (n * 10 + (c.toNat - 48))
    omega

theorem decimalFrom_lt : ∀ (cs : List Char) (n : Nat), cs.all isDecimalDigit = true →
    decimalFrom cs n < (n + 1) * 10 ^ cs.length := by
  intro cs
  induction cs with
  | nil => intro n _; simp [decimalFrom]
  | cons c cs ih =>
    intro n h
    simp only [List.all_cons, Bool.and_eq_true] at h
    have hc : 48 ≤ c.toNat ∧ c.toNat ≤ 57 := by simpa [isDecimalDigit] using h.1
    have h1 := ih (n * 10 + (c.toNat - 48)) h.2
    have h2 : (n * 10 + (c.toNat - 48) + 1) * 10 ^ cs.length ≤ ((n + 1) * 10) * 10 ^ cs.length :=
      Nat.mul_le_mul_right _ (by omega)
    simp only [decimalFrom, List.length_cons, pow_succ]
    calc decimalFrom cs (n * 10 + (c.toNat - 48))
        < (n * 10 + (c.toNat - 48) + 1) * 10 ^ cs.length := h1
      _ ≤ ((n + 1) * 10) * 10 ^ cs.length := h2
      _ = (n + 1) * (10 ^ cs.length * 10) := by ring

theorem decimalFrom_zero_lt (cs : List Char) (h : cs.all isDecimalDigit = true)
    (hl : cs.length ≤ 18) : decimalFrom cs 0 < 1000000000000000000 := by
  have h1 := decimalFrom_lt cs 0 h
  have h2 : 10 ^ cs.length ≤ 10 ^ 18 := Nat.pow_le_pow_right (by omega) hl
  have h3 : (10 : Nat) ^ 18 = 1000000000000000000 := by norm_num
  omega

theorem parseUintLoop_ok : ∀ (cs : List Char) (n : Nat), cs.all isDecimalDigit = true →
    decimalFrom cs n ≤ maxUint64 → parseUintLoop cs n = .ok (decimalFrom cs n) := by
  intro cs
  induction cs with
  | nil => intro n _ _; rfl
  | cons c cs ih =>
    intro n h hv
    simp only [List.all_cons, Bool.and_eq_true] at h
    have hc : 48 ≤ c.toNat ∧ c.toNat ≤ 57 := by simpa [isDecimalDigit] using h.1
    simp only [decimalFrom] at hv ⊢
    have hle := le_decimalFrom cs (n * 10 + (c.toNat - 48))
    unfold maxUint64 at hv
    have hn : ¬ n ≥ maxUint64 / 10 + 1 := by
      unfold maxUint64
      omega
    have e1 : (n * 10) % 18446744073709551616 = n * 10 := Nat.mod_eq_of_lt (by omega)
    have e2 : (n * 10 + (c.toNat - 48)) % 18446744073709551616 = n * 10 + (c.toNat - 48) :=
      Nat.mod_eq_of_lt (by omega)
    have hno : ¬ (n * 10 + (c.toNat - 48) < n * 10 ∨ n * 10 + (c.toNat - 48) > maxUint64) := by
      unfold maxUint64
      omega
    simp only [parseUintLoop, if_pos hc, if_neg hn, e1, e2, if_neg hno]
    exact ih _ h.2 (by unfold maxUint64; omega)

theorem parseUintLoop_error : ∀ (cs : List Char) (n : Nat),
    ¬ (cs.all isDecimalDigit = true ∧ decimalFrom cs n ≤ maxUint64) → n ≤ maxUint64 →
    ∃ e, parseUintLoop cs n = .error e := by
  intro cs
  induction cs with
  | nil =>
    intro n h hn
    exact absurd ⟨rfl, hn⟩ h
  | cons c cs ih =>
    intro n h hn
    by_cases hc : 48 ≤ c.toNat ∧ c.toNat ≤ 57
    · have hd : isDecimalDigit c = true := by simpa [isDecimalDigit] using hc
      simp only [List.all_cons, Bool.and_eq_true, hd, true_and, decimalFrom] at h
      have hle := le_decimalFrom cs (n * 10 + (c.toNat - 48))
      simp only [parseUintLoop, if_pos hc]
      by_cases hcut : n ≥ maxUint64 / 10 + 1
      · exact ⟨_, if_pos hcut⟩
      · rw [if_neg hcut]
        unfold maxUint64 at hcut hn
        have e1 : (n * 10) % 18446744073709551616 = n * 10 := Nat.mod_eq_of_lt (by omega)
        simp only [e1]
        by_cases hov : (n * 10 + (c.toNat - 48)) % 18446744073709551616 < n * 10 ∨
            (n * 10 + (c.toNat - 48)) % 18446744073709551616 > maxUint64
        · exact ⟨_, if_pos hov⟩
        · rw [if_neg hov]
          unfold maxUint64 at hov
          have e2 : (n * 10 + (c.toNat - 48)) % 18446744073709551616 =
              n * 10 + (c.toNat - 48) := by omega
          rw [e2]
          exact ih _ h (by unfold maxUint64; omega)
    · exact ⟨NumError.ErrSyntax, by simp only [parseUintLoop, if_neg hc]⟩

theorem atoiFastLoop_ok : ∀ (cs : List Char) (n : Nat), cs.all isDecimalDigit = true →
    decimalFrom cs n ≤ 9223372036854775807 →
    atoiFastLoop cs (n : Int) = .ok ((decimalFrom cs n : Nat) : Int) := by
  intro cs
  induction cs with
  | nil => intro n _ _; rfl
  | cons c cs ih =>
    intro n h hv
    simp only [List.all_cons, Bool.and_eq_true] at h
    have hc : 48 ≤ c.toNat ∧ c.toNat ≤ 57 := by simpa [isDecimalDigit] using h.1
    simp only [decimalFrom] at hv ⊢
    have hle := le_decimalFrom cs (n * 10 + (c.toNat - 48))
    have e1 : wrapInt64 ((n : Int) * 10 + ((c.toNat - 48 : Nat) : Int)) =
        ((n * 10 + (c.toNat - 48) : Nat) : Int) := by
      unfold wrapInt64
      omega
    simp only [atoiFastLoop, if_pos hc, e1]
    exact ih _ h.2 hv

theorem atoiFastLoop_error : ∀ (cs : List Char) (n : Int), ¬ cs.all isDecimalDigit = true →
    ∃ e, atoiFastLoop cs n = .error e := by
  intro cs
  induction cs with
  | nil => intro n h; exact absurd rfl h
  | cons c cs ih =>
    intro n h
    by_cases hc : 48 ≤ c.toNat ∧ c.toNat ≤ 57
    · have hd : isDecimalDigit c = true := by simpa [isDecimalDigit] using hc
      simp only [List.all_cons, Bool.and_eq_true, hd, true_and] at h
      simp only [atoiFastLoop, if_pos hc]
      exact ih _ h
    · exact ⟨NumError.ErrSyntax, by simp only [atoiFastLoop, if_neg hc]⟩

theorem parseIntFinish_toOption (neg : Prop) [Decidable neg] (un : Nat) (hun : un ≤ maxUint64) :
    (parseIntFinish neg un).toOption =
      if inInt64 (if neg then -(un : Int) else (un : Int))
      then some (if neg then -(un : Int) else (un : Int)) else none := by
  unfold maxUint64 at hun
  unfold parseIntFinish inInt64 minInt64 maxInt64
  by_cases hneg : neg
  · simp only [hneg, not_true_eq_false, false_and, if_false, true_and, if_true]
    by_cases h : un > 9223372036854775808
    · rw [if_pos h, if_neg (by omega)]
      rfl
    · rw [if_neg h, if_pos (by omega)]
      have : wrapInt64 (-wrapInt64 (un : Int)) = -(un : Int) := by
        unfold wrapInt64
        omega
      rw [this]
      rfl
  · simp only [hneg, not_false_eq_true, true_and, false_and, if_false]
    by_cases h : un ≥ 9223372036854775808
    · rw [if_pos h, if_neg (by omega)]
      rfl
    · rw [if_neg h, if_pos (by omega)]
      have : wrapInt64 (un : Int) = (un : Int) := by
        unfold wrapInt64
        omega
      rw [this]
      rfl

theorem signedDecimal_nil (neg : Bool) : signedDecimal neg [] = none := by
  simp [signedDecimal]

theorem signedDecimal_of_not_all (neg : Bool) (ds : List Char)
    (h : ¬ ds.all isDecimalDigit = true) : signedDecimal neg ds = none := by
  unfold signedDecimal
  rw [if_neg (fun hh => h hh.2)]

theorem signedDecimal_of_all (neg : Bool) (ds : List Char) (hne : ds ≠ [])
    (h : ds.all isDecimalDigit = true) :
    signedDecimal neg ds =
      if inInt64 (if neg = true then -((decimalFrom ds 0 : Nat) : Int)
        else ((decimalFrom ds 0 : Nat) : Int))
      then some (if neg = true then -((decimalFrom ds 0 : Nat) : Int)
        else ((decimalFrom ds 0 : Nat) : Int)) else none := by
  unfold signedDecimal
  rw [if_pos ⟨hne, h⟩]

theorem length_le_utf8ByteSize_go : ∀ cs : List Char, cs.length ≤ String.utf8ByteSize.go cs := by
  intro cs
  induction cs with
  | nil => simp [String.utf8ByteSize.go]
  | cons c cs ih =>
    have : 0 < c.utf8Size := Char.utf8Size_pos c
    simp only [String.utf8ByteSize.go, List.length_cons]
    omega

theorem length_data_le_len (s : String) : s.data.length ≤ len s := by
  obtain ⟨l⟩ := s
  exact length_le_utf8ByteSize_go l

theorem length_stripSign_le (sd : List Char) : (stripSign sd).length ≤ sd.length := by
  unfold stripSign
  split
  · simp
  · exact Nat.le_refl _

theorem atoiFast_toOption (sd : List Char) (hne : sd ≠ []) (hl : sd.length ≤ 18) :
    (atoiFast sd).toOption = signedDecimal (decide (isNeg sd)) (stripSign sd) := by
  unfold atoiFast
  by_cases h1 : hasSign sd ∧ (stripSign sd).length < 1
  · rw [if_pos h1]
    have : stripSign sd = [] := List.length_eq_zero.1 (by omega)
    rw [this, signedDecimal_nil]
    rfl
  · rw [if_neg h1]
    have hds : stripSign sd ≠ [] := by
      intro hnil
      by_cases hs : hasSign sd
      · exact h1 ⟨hs, by rw [hnil]; simp⟩
      · unfold stripSign at hnil
        rw [if_neg hs] at hnil
        exact hne hnil
    by_cases hall : (stripSign sd).all isDecimalDigit = true
    · have hlen := length_stripSign_le sd
      have hv := decimalFrom_zero_lt (stripSign sd) hall (by omega)
      have hloop := atoiFastLoop_ok (stripSign sd) 0 hall (by omega)
      simp only [Nat.cast_zero] at hloop
      rw [hloop, signedDecimal_of_all _ _ hds hall]
      by_cases hneg : isNeg sd
      · have e : wrapInt64 (-((decimalFrom (stripSign sd) 0 : Nat) : Int)) =
            -((decimalFrom (stripSign sd) 0 : Nat) : Int) := by
          unfold wrapInt64
          omega
        simp only [hneg, if_true, decide_True, e]
        rw [if_pos (by unfold inInt64 minInt64 maxInt64; omega)]
        rfl
      · simp only [hneg, if_false, decide_False, Bool.false_eq_true]
        rw [if_pos (by unfold inInt64 minInt64 maxInt64; omega)]
        rfl
    · obtain ⟨e, he⟩ := atoiFastLoop_error (stripSign sd) 0 hall
      rw [he, signedDecimal_of_not_all _ _ hall]
      rfl

theorem ParseInt_toOption (sd : List Char) (hne : sd ≠ []) :
    (ParseInt sd).toOption = signedDecimal (decide (isNeg sd)) (stripSign sd) := by
  unfold ParseInt ParseUint
  rw [if_neg hne]
  by_cases hds : stripSign sd = []
  · rw [if_pos hds, hds, signedDecimal_nil]
    rfl
  · rw [if_neg hds]
    by_cases hall : (stripSign sd).all isDecimalDigit = true
    · rw [signedDecimal_of_all _ _ hds hall]
      by_cases hv : decimalFrom (stripSign sd) 0 ≤ maxUint64
      · rw [parseUintLoop_ok _ 0 hall hv]
        simp only []
        rw [parseIntFinish_toOption _ _ hv]
        by_cases hneg : isNeg sd <;> simp [hneg]
      · obtain ⟨e, he⟩ := parseUintLoop_error (stripSign sd) 0 (fun hh => hv hh.2)
          (by unfold maxUint64; omega)
        rw [he]
        unfold maxUint64 at hv
        have hnot : ¬ inInt64 (if decide (isNeg sd) = true
            then -((decimalFrom (stripSign sd) 0 : Nat) : Int)
            else ((decimalFrom (stripSign sd) 0 : Nat) : Int)) := by
          unfold inInt64 minInt64 maxInt64
          split <;> omega
        rw [if_neg hnot]
        cases e with
        | ErrSyntax => rfl
        | ErrRange =>
          simp only []
          rw [parseIntFinish_toOption _ _ (Nat.le_refl _)]
          unfold maxUint64
          rw [if_neg]
          unfold inInt64 minInt64 maxInt64
          split <;> omega
    · obtain ⟨e, he⟩ := parseUintLoop_error (stripSign sd) 0 (fun hh => hall hh.1)
        (by unfold maxUint64; omega)
      rw [he, signedDecimal_of_not_all _ _ hall]
      cases e with
      | ErrSyntax => rfl
      | ErrRange =>
        simp only []
        rw [parseIntFinish_toOption _ _ (Nat.le_refl _)]
        unfold maxUint64
        rw [if_neg]
        unfold inInt64 minInt64 maxInt64
        split <;> omega

theorem parseBase10_eq (s : String) (hne : s.data ≠ []) :
    parseBase10 s = signedDecimal (decide (isNeg s.data)) (stripSign s.data) := by
  unfold parseBase10
  cases hd : s.data with
  | nil => exact absurd hd hne
  | cons c cs =>
    simp only [isNeg, stripSign, hasSign, List.head?_cons, Option.some.injEq, List.tail_cons]
    by_cases h1 : c = '-'
    · subst h1
      simp
    · by_cases h2 : c = '+'
      · subst h2
        simp
      · simp [h1, h2]

/-- The model of `strconv.Atoi` succeeds exactly on the strings that are parseable as a
base-10 integer, with that integer as its value. -/
theorem Atoi_toOption (s : String) : (Atoi s).toOption = parseBase10 s := by
  by_cases hne : s.data = []
  · have hs : s = "" := by
      obtain ⟨l⟩ := s
      simp only at hne
      subst hne
      rfl
    subst hs
    rfl
  · rw [parseBase10_eq s hne]
    unfold Atoi
    split
    · rename_i h
      exact atoiFast_toOption _ hne (by have := length_data_le_len s; omega)
    · exact ParseInt_toOption _ hne

/-! ## The claims -/

/-- C1: `main` exits at the configuration-validation step exactly when one of
`SQSD_QUEUE_REGION`, `SQSD_QUEUE_URL`, `SQSD_HTTP_URL` is empty; the run then
consists of the single `log.Fatal` call naming the first empty variable in the
order region, queue URL, HTTP URL, so no health probe is issued and the
Supervisor is neither constructed nor started. -/
theorem main_fatalConfig_iff (w : World) :
    ((main w).2 = Outcome.fatalConfig ↔
      (w.env "SQSD_QUEUE_REGION" = "" ∨ w.env "SQSD_QUEUE_URL" = "" ∨
        w.env "SQSD_HTTP_URL" = "")) ∧
    ((main w).2 = Outcome.fatalConfig →
      (main w).1 =
        [Event.Fatal
          (if w.env "SQSD_QUEUE_REGION" = "" then "SQSD_QUEUE_REGION cannot be empty"
           else if w.env "SQSD_QUEUE_URL" = "" then "SQSD_QUEUE_URL cannot be empty"
           else "SQSD_HTTP_URL cannot be empty")] ∧
      probesIssued (main w).1 = 0 ∧
      ∀ e ∈ (main w).1, isSupervisorCall e = false) := by
  have hv := validate_eq (loadConfig w.env)
  have e1 : (loadConfig w.env).QueueRegion = w.env "SQSD_QUEUE_REGION" := rfl
  have e2 : (loadConfig w.env).QueueURL = w.env "SQSD_QUEUE_URL" := rfl
  have e3 : (loadConfig w.env).HTTPURL = w.env "SQSD_HTTP_URL" := rfl
  rw [e1, e2, e3] at hv
  rcases main_cases w with ⟨msg, hm, h⟩ | ⟨hn, err, h⟩ | ⟨hn, -, l, h⟩ | ⟨hn, -, l, h⟩ |
    ⟨hn, -, l, h⟩
  · rw [h]
    rw [hm] at hv
    by_cases h1 : w.env "SQSD_QUEUE_REGION" = ""
    · simp only [h1, if_true, Option.some.injEq] at hv
      simp [h1, hv, probesIssued, isSupervisorCall]
    · by_cases h2 : w.env "SQSD_QUEUE_URL" = ""
      · simp only [h1, h2, if_true, if_false, Option.some.injEq] at hv
        simp [h1, h2, hv, probesIssued, isSupervisorCall]
      · by_cases h3 : w.env "SQSD_HTTP_URL" = ""
        · simp only [h1, h2, h3, if_true, if_false, Option.some.injEq] at hv
          simp [h1, h2, h3, hv, probesIssued, isSupervisorCall]
        · simp [h1, h2, h3] at hv
  all_goals
    rw [hn] at hv
    have hne : ¬ (w.env "SQSD_QUEUE_REGION" = "" ∨ w.env "SQSD_QUEUE_URL" = "" ∨
        w.env "SQSD_HTTP_URL" = "") := by
      rintro (h1 | h2 | h3)
      · simp [h1] at hv
      · by_cases h1 : w.env "SQSD_QUEUE_REGION" = "" <;> simp [h1, h2] at hv
      · by_cases h1 : w.env "SQSD_QUEUE_REGION" = "" <;>
          by_cases h2 : w.env "SQSD_QUEUE_URL" = "" <;> simp [h1, h2, h3] at hv
    rw [h]
    simp [hne]

/-- C1, at a concrete environment: with only the region set, the run is the
single fatal call for `SQSD_QUEUE_URL`. -/
theorem main_fatalConfig_iff_witness :
    (main { baseWorld with env := setenv baseEnv "SQSD_QUEUE_URL" "" }).1 =
      [Event.Fatal "SQSD_QUEUE_URL cannot be empty"] :=
  ((main_fatalConfig_iff { baseWorld with env := setenv baseEnv "SQSD_QUEUE_URL" "" }).2
    (by decide)).1

/-- C2, as stated, fails: with a success count of 2 and the probes 200, 500,
200 the gate exits at the third probe and `main` goes on to start the
Supervisor, although the last two probes issued were a failure and a success:
the endpoint never reported success twice in a row. -/
theorem gate_exit_not_consecutive :
    (loadConfig healthEnv).HTTPHealthSucessCount = 2 ∧
    (healthGate (loadConfig healthEnv) [.response 200, .response 500, .response 200]).2 = true ∧
    probesIssued (main (healthWorld [.response 200, .response 500, .response 200])).1 = 3 ∧
    Event.Start 50 ∈ (main (healthWorld [.response 200, .response 500, .response 200])).1 ∧
    ¬ (∀ r ∈ (List.take 3 [GetResult.response 200, .response 500, .response 200]).drop (3 - 2),
        probeOK r = true) := by
  decide

/-- C2, amended: with a health URL configured and a loaded success count
`N >= 1`, a run of `main` that constructs or starts the Supervisor has issued
probes `pre ++ [r]` of which exactly `N` were successes, the last one `r`
being a success; the successes need not be consecutive. -/
theorem gate_exit_total_successes (w : World)
    (hurl : w.env "SQSD_HTTP_HEALTH_URL" ≠ "")
    (hN : 1 ≤ (loadConfig w.env).HTTPHealthSucessCount)
    (hstart : ∃ e ∈ (main w).1, isSupervisorCall e = true) :
    ∃ pre r post, w.probes = pre ++ r :: post ∧
      probesIssued (main w).1 = pre.length + 1 ∧
      probeOK r = true ∧
      (countOK (pre ++ [r]) : Int) = (loadConfig w.env).HTTPHealthSucessCount := by
  have hr := loadConfig_successCount_inInt64 w.env
  have hneed := successesNeeded_of_pos hN
  obtain ⟨-, hgate, l, hm⟩ := main_of_supervisorCall w hstart
  rcases healthGate_cases (loadConfig w.env) hr hurl w.probes with ⟨-, hg⟩ |
    ⟨pre, r, post, e, hok, hcnt, hg⟩
  · rw [hg] at hgate
    cases hgate
  · refine ⟨pre, r, post, e, ?_, hok, ?_⟩
    · rw [hm, hg]
      simp [probesIssued, probesIssued_append, probesIssued_loopEvents]
    · rw [countOK_snoc pre r hok]
      omega

/-- C2 amended, at a concrete world: success count 2, probes 200, 500, 200. -/
theorem gate_exit_total_successes_witness :
    ∃ pre r post, [GetResult.response 200, .response 500, .response 200] = pre ++ r :: post ∧
      probesIssued (main (healthWorld [.response 200, .response 500, .response 200])).1 =
        pre.length + 1 ∧
      probeOK r = true ∧
      (countOK (pre ++ [r]) : Int) = (loadConfig healthEnv).HTTPHealthSucessCount :=
  gate_exit_total_successes (healthWorld [.response 200, .response 500, .response 200])
    (by decide) (by decide) ⟨Event.Start 50, by decide, rfl⟩

/-- C3: `getEnvInt(key, d)` returns `d` when the value of `key` is unset or
empty, returns `d` when the value is not parseable as a base-10 integer (an
optional sign and one or more decimal digits, within the range of `int`), and
otherwise returns the parsed integer; so with `SQSD_QUEUE_MAX_MSGS`,
`SQSD_QUEUE_WAIT_TIME`, `SQSD_HTTP_MAX_CONNS` and `SQSD_HTTP_TIMEOUT` unset the
loaded configuration has batch size 10, wait time 10, max connections 50 and
timeout 30. -/
theorem getEnvInt_default_or_parsed (env : Env) (key : String) (d : Int) :
    (env key = "" → getEnvInt env key d = d) ∧
    (parseBase10 (env key) = none → getEnvInt env key d = d) ∧
    (∀ v, parseBase10 (env key) = some v → getEnvInt env key d = v) ∧
    (env "SQSD_QUEUE_MAX_MSGS" = "" → env "SQSD_QUEUE_WAIT_TIME" = "" →
      env "SQSD_HTTP_MAX_CONNS" = "" → env "SQSD_HTTP_TIMEOUT" = "" →
      (loadConfig env).QueueMaxMessages = 10 ∧ (loadConfig env).QueueWaitTime = 10 ∧
      (loadConfig env).HTTPMaxConns = 50 ∧ (loadConfig env).HTTPTimeout = 30) := by
  have hA := Atoi_toOption (env key)
  refine ⟨getEnvInt_empty env key d, ?_, ?_, ?_⟩
  · intro hnone
    unfold getEnvInt
    cases hat : Atoi (env key) with
    | error e => rfl
    | ok v =>
      rw [hat, hnone] at hA
      cases hA
  · intro v hsome
    unfold getEnvInt
    cases hat : Atoi (env key) with
    | error e =>
      rw [hat, hsome] at hA
      cases hA
    | ok v2 =>
      rw [hat, hsome] at hA
      injection hA
  · intro h1 h2 h3 h4
    exact ⟨getEnvInt_empty env _ 10 h1, getEnvInt_empty env _ 10 h2,
      getEnvInt_empty env _ 50 h3, getEnvInt_empty env _ 30 h4⟩

/-- C3, at concrete environments: `SQSD_QUEUE_MAX_MSGS=-7` is read as -7, the
unparseable `SQSD_QUEUE_MAX_MSGS=7x` gives the default, and `baseEnv` loads the
defaults 10, 10, 50 and 30. -/
theorem getEnvInt_default_or_parsed_witness :
    getEnvInt (setenv baseEnv "SQSD_QUEUE_MAX_MSGS" "-7") "SQSD_QUEUE_MAX_MSGS" 10 = -7 ∧
    getEnvInt (setenv baseEnv "SQSD_QUEUE_MAX_MSGS" "7x") "SQSD_QUEUE_MAX_MSGS" 10 = 10 ∧
    ((loadConfig baseEnv).QueueMaxMessages = 10 ∧ (loadConfig baseEnv).QueueWaitTime = 10 ∧
      (loadConfig baseEnv).HTTPMaxConns = 50 ∧ (loadConfig baseEnv).HTTPTimeout = 30) :=
  ⟨(getEnvInt_default_or_parsed (setenv baseEnv "SQSD_QUEUE_MAX_MSGS" "-7")
      "SQSD_QUEUE_MAX_MSGS" 10).2.2.1 (-7) (by decide),
   (getEnvInt_default_or_parsed (setenv baseEnv "SQSD_QUEUE_MAX_MSGS" "7x")
      "SQSD_QUEUE_MAX_MSGS" 10).2.1 (by decide),
   (getEnvInt_default_or_parsed baseEnv "SQSD_QUEUE_MAX_MSGS" 10).2.2.2 rfl rfl rfl rfl⟩

/-- C4: (1) in every run of `main` that reaches supervisor start-up, that is
whenever validation passes, the log level parses, the health gate lets startup
proceed and the session is created, `Supervisor.Start` is invoked exactly once:
the `Start` calls of the run are the single call with worker count
`getEnvInt("SQSD_HTTP_MAX_CONNS", 50)`, the loaded `HTTPMaxConns`, and the
delivery HTTP client handed to `NewSupervisor` has both idle limits of its
connection pool equal to the same value; (2) the same holds of every run that
contains a `Start` call at all; (3) no run has more than one `Start` call;
(4) the worker count is 50 when `SQSD_HTTP_MAX_CONNS` is unset. -/
theorem start_once_with_HTTPMaxConns (w : World) :
    (validate (loadConfig w.env) = none →
      (∃ l, w.ParseLevel (logLevel w.env) = .ok l) →
      (healthGate (loadConfig w.env) w.probes).2 = true →
      w.sessionErr = false →
      (main w).1.filter isStart = [Event.Start (getEnvInt w.env "SQSD_HTTP_MAX_CONNS" 50)] ∧
      (main w).2 = Outcome.returned ∧
      ∃ cl, deliveryClient (main w).1 = some cl ∧
        cl.Transport.MaxIdleConns = getEnvInt w.env "SQSD_HTTP_MAX_CONNS" 50 ∧
        cl.Transport.MaxIdleConnsPerHost = getEnvInt w.env "SQSD_HTTP_MAX_CONNS" 50) ∧
    ((∃ n, Event.Start n ∈ (main w).1) →
      (main w).1.filter isStart = [Event.Start (getEnvInt w.env "SQSD_HTTP_MAX_CONNS" 50)] ∧
      ∃ cl, deliveryClient (main w).1 = some cl ∧
        cl.Transport.MaxIdleConns = getEnvInt w.env "SQSD_HTTP_MAX_CONNS" 50 ∧
        cl.Transport.MaxIdleConnsPerHost = getEnvInt w.env "SQSD_HTTP_MAX_CONNS" 50) ∧
    ((main w).1.filter isStart).length ≤ 1 ∧
    (w.env "SQSD_HTTP_MAX_CONNS" = "" → getEnvInt w.env "SQSD_HTTP_MAX_CONNS" 50 = 50) := by
  refine ⟨?_, ?_, ?_, getEnvInt_empty _ _ _⟩
  · rintro hv ⟨l, hl⟩ hg hs
    obtain ⟨hret, hmem⟩ := main_returned_of w hv l hl hg hs
    obtain ⟨-, h2, h3, -⟩ := main_supervisorCalls w ⟨_, hmem, rfl⟩
    exact ⟨h2, hret, _, h3, rfl, rfl⟩
  · rintro ⟨n, hn⟩
    obtain ⟨-, h2, h3, -⟩ := main_supervisorCalls w ⟨Event.Start n, hn, rfl⟩
    exact ⟨h2, _, h3, rfl, rfl⟩
  · by_cases h : ∃ e ∈ (main w).1, isSupervisorCall e = true
    · rw [(main_supervisorCalls w h).2.1]
      simp
    · have hnil : (main w).1.filter isStart = [] := by
        rw [List.filter_eq_nil_iff]
        intro e he hst
        apply h
        refine ⟨e, he, ?_⟩
        cases e <;> simp [isStart, isSupervisorCall] at hst ⊢
      rw [hnil]
      simp

/-- C4, at a concrete environment: with `SQSD_HTTP_MAX_CONNS=8` and no health
URL the run reaches start-up, returns, and its one `Start` call gets 8
workers. -/
theorem start_once_with_HTTPMaxConns_witness :
    (main { baseWorld with env := setenv baseEnv "SQSD_HTTP_MAX_CONNS" "8" }).1.filter isStart =
      [Event.Start 8] ∧
    (main { baseWorld with env := setenv baseEnv "SQSD_HTTP_MAX_CONNS" "8" }).2 =
      Outcome.returned :=
  ⟨((start_once_with_HTTPMaxConns
      { baseWorld with env := setenv baseEnv "SQSD_HTTP_MAX_CONNS" "8" }).1
      (by decide) ⟨4, rfl⟩ (by decide) rfl).1,
   ((start_once_with_HTTPMaxConns
      { baseWorld with env := setenv baseEnv "SQSD_HTTP_MAX_CONNS" "8" }).1
      (by decide) ⟨4, rfl⟩ (by decide) rfl).2.1⟩

/-- C5, as stated, fails: with `SQSD_HTTP_TIMEOUT=9223372037` the loaded
timeout `t` is 9223372037 seconds, the `int64` product with `time.Second`
wraps, and the delivery client gets the negative `Timeout` of
-9223372036709551616 ns, which is not `t * 1_000_000_000` ns. -/
theorem deliveryClient_timeout_overflow :
    (loadConfig bigTimeoutWorld.env).HTTPTimeout = 9223372037 ∧
    (deliveryClient (main bigTimeoutWorld).1).map Client.Timeout =
      some (-9223372036709551616) ∧
    (deliveryClient (main bigTimeoutWorld).1).map Client.Timeout ≠
      some ((loadConfig bigTimeoutWorld.env).HTTPTimeout * 1000000000) := by
  decide

/-- C5, amended: the HTTP client handed to the Supervisor has `MaxIdleConns` and
`MaxIdleConnsPerHost` both equal to the loaded `HTTPMaxConns`, and its
`Timeout` is the `int64` product of the loaded `HTTPTimeout` `t` with
`time.Second`; this is exactly `t` seconds (`t * 1_000_000_000` ns) whenever
`-9223372036 <= t <= 9223372036`. -/
theorem deliveryClient_timeout_and_pool (w : World) (cl : Client)
    (h : deliveryClient (main w).1 = some cl) :
    cl.Transport.MaxIdleConns = (loadConfig w.env).HTTPMaxConns ∧
    cl.Transport.MaxIdleConnsPerHost = (loadConfig w.env).HTTPMaxConns ∧
    cl.Timeout = wrapInt64 ((loadConfig w.env).HTTPTimeout * 1000000000) ∧
    (-9223372036 ≤ (loadConfig w.env).HTTPTimeout ∧ (loadConfig w.env).HTTPTimeout ≤ 9223372036 →
      cl.Timeout = (loadConfig w.env).HTTPTimeout * 1000000000) := by
  have hs : ∃ e ∈ (main w).1, isSupervisorCall e = true := by
    by_contra hc
    rw [(main_no_supervisorCall w hc).1] at h
    cases h
  obtain ⟨-, -, h3, -⟩ := main_supervisorCalls w hs
  rw [h3] at h
  injection h with h
  subst h
  refine ⟨rfl, rfl, rfl, ?_⟩
  intro hr
  show wrapInt64 ((loadConfig w.env).HTTPTimeout * 1000000000) = _
  unfold wrapInt64
  omega

/-- C5 amended, at a concrete environment: `SQSD_HTTP_TIMEOUT=45` and
`SQSD_HTTP_MAX_CONNS` unset give a 45 s timeout and a pool of 50. -/
theorem deliveryClient_timeout_and_pool_witness :
    deliveryClient (main { baseWorld with env := setenv baseEnv "SQSD_HTTP_TIMEOUT" "45" }).1 =
      some { Transport := { MaxIdleConns := 50, MaxIdleConnsPerHost := 50 },
             Timeout := 45000000000 } ∧
    (45000000000 : Int) = 45 * 1000000000 :=
  ⟨by decide,
   ((deliveryClient_timeout_and_pool
      { baseWorld with env := setenv baseEnv "SQSD_HTTP_TIMEOUT" "45" }
      { Transport := { MaxIdleConns := 50, MaxIdleConnsPerHost := 50 }, Timeout := 45000000000 }
      (by decide)).2.2.2 (by decide))⟩

/-- C6: the `WorkerConfig` handed to `NewSupervisor` is a field-for-field copy
of the loaded configuration (`QueueURL`, `QueueMaxMessages`, `QueueWaitTime`,
`HTTPURL`, `HTTPContentType`, `HTTPHMACHeader`, `HMACSecretKey`), each being
the value read from its environment variable; `HMACSecretKey` is the byte
sequence of `SQSD_HMAC_SECRET_KEY` and is empty exactly when that variable is
unset or empty.  Every run that returns from `Wait` has handed out such a
`WorkerConfig`. -/
theorem workerConfig_is_copy (w : World) :
    (∀ wc, workerConfig (main w).1 = some wc →
      (wc.QueueURL = (loadConfig w.env).QueueURL ∧
       wc.QueueMaxMessages = (loadConfig w.env).QueueMaxMessages ∧
       wc.QueueWaitTime = (loadConfig w.env).QueueWaitTime ∧
       wc.HTTPURL = (loadConfig w.env).HTTPURL ∧
       wc.HTTPContentType = (loadConfig w.env).HTTPContentType ∧
       wc.HTTPHMACHeader = (loadConfig w.env).HTTPHMACHeader ∧
       wc.HMACSecretKey = (loadConfig w.env).HMACSecretKey) ∧
      (wc.QueueURL = w.env "SQSD_QUEUE_URL" ∧
       wc.QueueMaxMessages = getEnvInt w.env "SQSD_QUEUE_MAX_MSGS" 10 ∧
       wc.QueueWaitTime = getEnvInt w.env "SQSD_QUEUE_WAIT_TIME" 10 ∧
       wc.HTTPURL = w.env "SQSD_HTTP_URL" ∧
       wc.HTTPContentType = w.env "SQSD_HTTP_CONTENT_TYPE" ∧
       wc.HTTPHMACHeader = w.env "SQSD_HTTP_HMAC_HEADER" ∧
       wc.HMACSecretKey = bytes (w.env "SQSD_HMAC_SECRET_KEY")) ∧
      (wc.HMACSecretKey = [] ↔ w.env "SQSD_HMAC_SECRET_KEY" = "")) ∧
    ((main w).2 = Outcome.returned → ∃ wc, workerConfig (main w).1 = some wc) := by
  constructor
  · intro wc h
    have hs : ∃ e ∈ (main w).1, isSupervisorCall e = true := by
      by_contra hc
      rw [(main_no_supervisorCall w hc).2] at h
      cases h
    obtain ⟨-, -, -, h4⟩ := main_supervisorCalls w hs
    rw [h4] at h
    injection h with h
    subst h
    refine ⟨⟨rfl, rfl, rfl, rfl, rfl, rfl, rfl⟩, ⟨rfl, rfl, rfl, rfl, rfl, rfl, rfl⟩, ?_⟩
    exact bytes_eq_nil_iff _
  · intro hret
    rcases main_cases w with ⟨msg, -, h⟩ | ⟨-, err, h⟩ | ⟨-, -, l, h⟩ | ⟨-, -, l, h⟩ |
      ⟨-, -, l, h⟩
    · rw [h] at hret; cases hret
    · rw [h] at hret; cases hret
    · rw [h] at hret; cases hret
    · rw [h] at hret; cases hret
    · have hs : ∃ e ∈ (main w).1, isSupervisorCall e = true := by
        rw [h]
        exact ⟨Event.Start (loadConfig w.env).HTTPMaxConns, by simp, rfl⟩
      exact ⟨_, (main_supervisorCalls w hs).2.2.2⟩

/-- C6, at a concrete environment: with `SQSD_HMAC_SECRET_KEY=k` the run
returns and the worker configuration carries the one byte `0x6b`. -/
theorem workerConfig_is_copy_witness :
    (main { baseWorld with env := setenv baseEnv "SQSD_HMAC_SECRET_KEY" "k" }).2 =
        Outcome.returned ∧
    ∃ wc, workerConfig
        (main { baseWorld with env := setenv baseEnv "SQSD_HMAC_SECRET_KEY" "k" }).1 = some wc ∧
      wc.HMACSecretKey = [107] :=
  ⟨by decide,
   (workerConfig_is_copy
      { baseWorld with env := setenv baseEnv "SQSD_HMAC_SECRET_KEY" "k" }).2 (by decide)
    |>.elim (fun wc h => ⟨wc, h,
      ((workerConfig_is_copy
        { baseWorld with env := setenv baseEnv "SQSD_HMAC_SECRET_KEY" "k" }).1 wc h).2.1.2.2.2.2.2.2⟩)⟩

/-- C7: in a run of `main` (validate, health gate, construct clients,
`NewSupervisor`, `Start`, `Wait`) (1) while the health gate is unsatisfied no
Supervisor call is made, and every probe and sleep of the gate comes before
every Supervisor call; (2) with `SQSD_HTTP_HEALTH_URL` empty the gate makes no
call at all, so the run has no probe and no sleep; (3) the gate shares no state
with the Supervisor: the Supervisor calls and their arguments are the same in
any two runs that reach them and whose environments agree outside the four
health variables, whatever the health settings and probe results. -/
theorem gate_before_supervisor (w : World) :
    ((healthGate (loadConfig w.env) w.probes).2 = false →
      ∀ e ∈ (main w).1, isSupervisorCall e = false) ∧
    (∃ xs ys, (main w).1 = xs ++ ys ∧ (∀ e ∈ xs, isSupervisorCall e = false) ∧
      (∀ e ∈ ys, isHealthCall e = false)) ∧
    (w.env "SQSD_HTTP_HEALTH_URL" = "" →
      healthGate (loadConfig w.env) w.probes = ([], true) ∧
      ∀ e ∈ (main w).1, isHealthCall e = false) ∧
    (∀ w2 : World, (∀ k, k ∉ healthKeys → w2.env k = w.env k) →
      (∃ e ∈ (main w).1, isSupervisorCall e = true) →
      (∃ e ∈ (main w2).1, isSupervisorCall e = true) →
      (main w2).1.filter isSupervisorCall = (main w).1.filter isSupervisorCall) := by
  have hg := healthGate_isHealthCall (loadConfig w.env) w.probes
  refine ⟨?_, ?_, ?_, ?_⟩
  · intro hgate e he
    by_contra hc
    have hs : ∃ e ∈ (main w).1, isSupervisorCall e = true := ⟨e, he, by simpa using hc⟩
    have := (main_of_supervisorCall w hs).2.1
    rw [hgate] at this
    cases this
  · rcases main_cases w with ⟨msg, -, h⟩ | ⟨-, err, h⟩ | ⟨-, -, l, h⟩ | ⟨-, -, l, h⟩ |
      ⟨-, -, l, h⟩
    · refine ⟨[], [Event.Fatal msg], by rw [h]; rfl, by simp, by simp [isHealthCall]⟩
    · refine ⟨[], [Event.Fatal err], by rw [h]; rfl, by simp, by simp [isHealthCall]⟩
    · refine ⟨Event.SetLevel l :: (healthGate (loadConfig w.env) w.probes).1, [],
        by rw [h]; simp, ?_, by simp⟩
      intro e he
      simp only [List.mem_cons] at he
      rcases he with rfl | he
      · rfl
      · exact not_supervisor_of_health (hg e he)
    · refine ⟨Event.SetLevel l :: (healthGate (loadConfig w.env) w.probes).1,
        [Event.NewSession], by rw [h]; simp, ?_, by simp [isHealthCall]⟩
      intro e he
      simp only [List.mem_cons] at he
      rcases he with rfl | he
      · rfl
      · exact not_supervisor_of_health (hg e he)
    · refine ⟨Event.SetLevel l :: (healthGate (loadConfig w.env) w.probes).1, _,
        by rw [h]; rfl, ?_, ?_⟩
      · intro e he
        simp only [List.mem_cons] at he
        rcases he with rfl | he
        · rfl
        · exact not_supervisor_of_health (hg e he)
      · intro e he
        simp only [List.mem_cons, List.mem_singleton, List.not_mem_nil, or_false] at he
        rcases he with rfl | rfl | rfl | rfl | rfl <;> rfl
  · intro hurl
    have hno := healthGate_no_url (loadConfig w.env) hurl w.probes
    refine ⟨hno, ?_⟩
    rcases main_cases w with ⟨msg, -, h⟩ | ⟨-, err, h⟩ | ⟨-, -, l, h⟩ | ⟨-, -, l, h⟩ |
      ⟨-, -, l, h⟩ <;> rw [h] <;> simp [isHealthCall, hno]
  · intro w2 hagree h1 h2
    rw [(main_supervisorCalls w h1).1, (main_supervisorCalls w2 h2).1]
    have k1 := hagree "SQSD_QUEUE_REGION" (by decide)
    have k2 := hagree "SQSD_QUEUE_URL" (by decide)
    have k3 := hagree "SQSD_QUEUE_MAX_MSGS" (by decide)
    have k4 := hagree "SQSD_QUEUE_WAIT_TIME" (by decide)
    have k5 := hagree "SQSD_HTTP_MAX_CONNS" (by decide)
    have k6 := hagree "SQSD_HTTP_URL" (by decide)
    have k7 := hagree "SQSD_HTTP_CONTENT_TYPE" (by decide)
    have k8 := hagree "SQSD_HTTP_TIMEOUT" (by decide)
    have k9 := hagree "SQSD_AWS_ENDPOINT" (by decide)
    have k10 := hagree "SQSD_HTTP_HMAC_HEADER" (by decide)
    have k11 := hagree "SQSD_HMAC_SECRET_KEY" (by decide)
    simp only [mkLogger, mkSqsConfig, mkHttpClient, mkWorkerConfig, loadConfig, getEnvInt,
      k1, k2, k3, k4, k5, k6, k7, k8, k9, k10, k11]

/-- C7, at concrete worlds: a run with the health gate configured (success
count 2, probes 200, 500, 200) and a run with no health variable set make the
same Supervisor calls with the same arguments. -/
theorem gate_before_supervisor_witness :
    (main baseWorld).1.filter isSupervisorCall =
      (main (healthWorld [.response 200, .response 500, .response 200])).1.filter
        isSupervisorCall :=
  (gate_before_supervisor (healthWorld [.response 200, .response 500, .response 200])).2.2.2
    baseWorld
    (by
      intro k hk
      simp only [healthKeys, List.mem_cons, List.mem_singleton, List.not_mem_nil, or_false,
        not_or] at hk
      simp [healthWorld, baseWorld, healthEnv, setenv, hk.1, hk.2.2.2])
    ⟨Event.Start 50, by decide, rfl⟩
    ⟨Event.Start 50, by decide, rfl⟩

/-- C8, as stated, fails for a negative or an overflowing wait.  With a success
count of 2, the default interval of 5 s and the probes 200, 200 (no failed
probe) the gate exits, and: for `SQSD_HTTP_HEALTH_WAIT=-1` the call
`time.Sleep` returns at once, so the gate sleeps 0 ns and not `w + i * f = -1`
seconds; for `SQSD_HTTP_HEALTH_WAIT=9223372037` the duration wraps to a
negative one, so the gate again sleeps 0 ns and not 9223372037 seconds. -/
theorem gate_sleep_negative_or_overflowing_wait :
    ((healthGate (loadConfig negWaitEnv) [.response 200, .response 200]).2 = true ∧
      (loadConfig negWaitEnv).HTTPHealthWait = -1 ∧
      totalSleep (healthGate (loadConfig negWaitEnv) [.response 200, .response 200]).1 = 0 ∧
      totalSleep (healthGate (loadConfig negWaitEnv) [.response 200, .response 200]).1 ≠
        ((loadConfig negWaitEnv).HTTPHealthWait + (loadConfig negWaitEnv).HTTPHealthInterval *
          (countFailed [.response 200, .response 200] : Int)) * Second) ∧
    ((healthGate (loadConfig bigWaitEnv) [.response 200, .response 200]).2 = true ∧
      (loadConfig bigWaitEnv).HTTPHealthWait = 9223372037 ∧
      totalSleep (healthGate (loadConfig bigWaitEnv) [.response 200, .response 200]).1 = 0 ∧
      totalSleep (healthGate (loadConfig bigWaitEnv) [.response 200, .response 200]).1 ≠
        ((loadConfig bigWaitEnv).HTTPHealthWait + (loadConfig bigWaitEnv).HTTPHealthInterval *
          (countFailed [.response 200, .response 200] : Int)) * Second) := by
  decide

/-- C8, amended: with a health URL configured, any loaded success count (so
also every `N >= 1`), and a loaded initial wait `w` and retry interval `i` both
within `0 .. 9223372036` seconds, whenever the gate exits it has issued probes
`pre ++ [r]`, its calls are the sleep of `w` seconds, then for each probe of
`pre` the probe followed by a sleep of `i` seconds exactly when the probe
failed, then the final successful probe; the total time slept is
`(w + i * f)` seconds (in ns), `f` being the number of failed probes issued. -/
theorem gate_total_sleep (env : Env) (ps : List GetResult)
    (hurl : env "SQSD_HTTP_HEALTH_URL" ≠ "")
    (hw : 0 ≤ (loadConfig env).HTTPHealthWait ∧ (loadConfig env).HTTPHealthWait ≤ 9223372036)
    (hi : 0 ≤ (loadConfig env).HTTPHealthInterval ∧
      (loadConfig env).HTTPHealthInterval ≤ 9223372036)
    (hexit : (healthGate (loadConfig env) ps).2 = true) :
    ∃ pre r post, ps = pre ++ r :: post ∧
      probesIssued (healthGate (loadConfig env) ps).1 = pre.length + 1 ∧
      (healthGate (loadConfig env) ps).1 =
        Event.Sleep ((loadConfig env).HTTPHealthWait * 1000000000) ::
          (loopEvents (env "SQSD_HTTP_HEALTH_URL") (loadConfig env).HTTPHealthInterval pre ++
            [Event.Get (env "SQSD_HTTP_HEALTH_URL")]) ∧
      totalSleep (healthGate (loadConfig env) ps).1 =
        ((loadConfig env).HTTPHealthWait +
          (loadConfig env).HTTPHealthInterval * (countFailed (pre ++ [r]) : Int)) * 1000000000 := by
  have hr := loadConfig_successCount_inInt64 env
  rcases healthGate_cases (loadConfig env) hr hurl ps with ⟨-, hg⟩ |
    ⟨pre, r, post, e, hok, hcnt, hg⟩
  · rw [hg] at hexit
    cases hexit
  · have hsw : seconds (loadConfig env).HTTPHealthWait =
        (loadConfig env).HTTPHealthWait * 1000000000 := by
      unfold seconds Second wrapInt64
      omega
    refine ⟨pre, r, post, e, ?_, ?_, ?_⟩
    · rw [hg]
      simp [probesIssued, probesIssued_append, probesIssued_loopEvents]
    · rw [hg, hsw]
      rfl
    · rw [hg, countFailed_snoc pre r hok]
      simp only [totalSleep, totalSleep_append, totalSleep_loopEvents,
        sleepTime_seconds hw.1 hw.2, sleepTime_seconds hi.1 hi.2]
      ring

/-- C8 amended, at a concrete environment: wait 3 s, interval 7 s, success
count 2, probes 200, 500, error, 200: two failed probes, 17 s slept. -/
theorem gate_total_sleep_witness :
    ∃ pre r post,
      [GetResult.response 200, .response 500, .error "refused", .response 200] =
        pre ++ r :: post ∧
      probesIssued (healthGate
        (loadConfig sleepEnv)
        [.response 200, .response 500, .error "refused", .response 200]).1 = pre.length + 1 ∧
      (healthGate
        (loadConfig sleepEnv)
        [.response 200, .response 500, .error "refused", .response 200]).1 =
        Event.Sleep ((loadConfig sleepEnv).HTTPHealthWait * 1000000000) ::
          (loopEvents
            (sleepEnv "SQSD_HTTP_HEALTH_URL")
            (loadConfig sleepEnv).HTTPHealthInterval pre ++
            [Event.Get (sleepEnv "SQSD_HTTP_HEALTH_URL")]) ∧
      totalSleep (healthGate
        (loadConfig sleepEnv)
        [.response 200, .response 500, .error "refused", .response 200]).1 =
        ((loadConfig sleepEnv).HTTPHealthWait +
          (loadConfig sleepEnv).HTTPHealthInterval *
            (countFailed (pre ++ [r]) : Int)) * 1000000000 :=
  gate_total_sleep
    sleepEnv
    [.response 200, .response 500, .error "refused", .response 200]
    (by decide) (by decide) (by decide) (by decide)

/-- C9: with a health URL configured and a loaded success count `N >= 1`:
a probe counts as a success exactly when it returned no transport error and
status code 200; as long as fewer than `N` probes have succeeded the gate has
not exited and has consumed every probe given; and when the probes are
`pre ++ r :: post` with `r` the `N`-th success (a success preceded by `N - 1`
successes in `pre`, failed probes in between not resetting the count), the gate
exits exactly at `r`, after `pre.length + 1` probes. -/
theorem gate_exits_at_nth_success (env : Env) (ps : List GetResult)
    (hurl : env "SQSD_HTTP_HEALTH_URL" ≠ "")
    (hN : 1 ≤ (loadConfig env).HTTPHealthSucessCount) :
    (∀ r, probeOK r = true ↔ r = GetResult.response 200) ∧
    ((countOK ps : Int) < (loadConfig env).HTTPHealthSucessCount →
      (healthGate (loadConfig env) ps).2 = false ∧
      probesIssued (healthGate (loadConfig env) ps).1 = ps.length) ∧
    (∀ pre r post, ps = pre ++ r :: post → probeOK r = true →
      (countOK pre : Int) + 1 = (loadConfig env).HTTPHealthSucessCount →
      (healthGate (loadConfig env) ps).2 = true ∧
      probesIssued (healthGate (loadConfig env) ps).1 = pre.length + 1) := by
  have hr := loadConfig_successCount_inInt64 env
  have hneed := successesNeeded_of_pos hN
  refine ⟨?_, ?_, ?_⟩
  · intro r
    cases r with
    | response code => simp [probeOK]
    | error e => simp [probeOK]
  · intro hlt
    rw [healthGate_polling (loadConfig env) hr hurl ps (by omega)]
    simp [probesIssued, probesIssued_loopEvents]
  · intro pre r post e hok hcnt
    rw [e, healthGate_exit (loadConfig env) hr hurl pre r post hok (by omega)]
    simp [probesIssued, probesIssued_append, probesIssued_loopEvents]

/-- C9, at a concrete environment: with a success count of 2 and the probes
200, 500, error, 200, 200 the gate exits at the fourth probe. -/
theorem gate_exits_at_nth_success_witness :
    (healthGate (loadConfig healthEnv)
        [.response 200, .response 500, .error "refused", .response 200, .response 200]).2 = true ∧
    probesIssued (healthGate (loadConfig healthEnv)
        [.response 200, .response 500, .error "refused", .response 200, .response 200]).1 = 4 :=
  (gate_exits_at_nth_success healthEnv
      [.response 200, .response 500, .error "refused", .response 200, .response 200]
      (by decide) (by decide)).2.2
    [.response 200, .response 500, .error "refused"] (.response 200) [.response 200]
    rfl rfl (by decide)

/-- C10, as stated, fails: `numSuccesses` is a 64-bit `int`, so with a loaded
success count of 0 the counter is 0 again after 2^64 increments: on
18446744073709551616 successful probes the gate exits and `main` starts the
Supervisor. -/
theorem gate_exits_after_wraparound :
    (loadConfig zeroCountEnv).HTTPHealthSucessCount = 0 ∧
    (healthGate (loadConfig zeroCountEnv)
      (List.replicate 18446744073709551616 (GetResult.response 200))).2 = true ∧
    (main (zeroCountWorld (List.replicate 18446744073709551616 (GetResult.response 200)))).2 =
      Outcome.returned ∧
    Event.Start 50 ∈
      (main (zeroCountWorld (List.replicate 18446744073709551616 (GetResult.response 200)))).1 := by
  have hc : (loadConfig zeroCountEnv).HTTPHealthSucessCount = 0 := by decide
  have hprobes : List.replicate 18446744073709551616 (GetResult.response 200) =
      List.replicate 18446744073709551615 (GetResult.response 200) ++
        GetResult.response 200 :: [] :=
    List.replicate_succ' 18446744073709551615 (GetResult.response 200)
  have hneed : successesNeeded (loadConfig zeroCountEnv).HTTPHealthSucessCount =
      18446744073709551616 := by
    rw [hc]
    unfold successesNeeded
    rw [if_neg (by omega)]
    omega
  have hgate : (healthGate (loadConfig zeroCountEnv)
      (List.replicate 18446744073709551616 (GetResult.response 200))).2 = true := by
    rw [hprobes, healthGate_exit (loadConfig zeroCountEnv) (loadConfig_successCount_inInt64 _)
      (by decide) (List.replicate 18446744073709551615 (GetResult.response 200))
      (GetResult.response 200) [] rfl (by rw [countOK_replicate_ok, hneed])]
  have hm := main_returned_of
    (zeroCountWorld (List.replicate 18446744073709551616 (GetResult.response 200)))
    (by decide) 4 rfl hgate rfl
  exact ⟨hc, hgate, hm.1, hm.2⟩

/-- C10, amended: with a health URL configured and a loaded success count
`N <= 0`, the gate has not exited after any finite sequence of probe results
that contains fewer than `2^64 + N` successes: every probe given has been
consumed, the loop is still polling, `main` has made no Supervisor call and has
not returned.  (Only the wrap-around of the 64-bit counter after `2^64 + N`
successes lets the loop end.) -/
theorem gate_blocks_below_wraparound (w : World)
    (hurl : w.env "SQSD_HTTP_HEALTH_URL" ≠ "")
    (hN : (loadConfig w.env).HTTPHealthSucessCount ≤ 0)
    (hcnt : (countOK w.probes : Int) <
      18446744073709551616 + (loadConfig w.env).HTTPHealthSucessCount) :
    (healthGate (loadConfig w.env) w.probes).2 = false ∧
    probesIssued (healthGate (loadConfig w.env) w.probes).1 = w.probes.length ∧
    (∀ e ∈ (main w).1, isSupervisorCall e = false) ∧
    (main w).2 ≠ Outcome.returned := by
  have hr := loadConfig_successCount_inInt64 w.env
  have hneed := successesNeeded_of_nonpos hN hr
  have hg := healthGate_polling (loadConfig w.env) hr hurl w.probes (by omega)
  have hno : ∀ e ∈ (main w).1, isSupervisorCall e = false := by
    intro e he
    by_contra hc
    have := (main_of_supervisorCall w ⟨e, he, by simpa using hc⟩).2.1
    rw [hg] at this
    cases this
  refine ⟨by rw [hg], ?_, hno, ?_⟩
  · rw [hg]
    simp [probesIssued, probesIssued_loopEvents]
  · intro hret
    rcases main_cases w with ⟨msg, -, h⟩ | ⟨-, err, h⟩ | ⟨-, -, l, h⟩ | ⟨-, -, l, h⟩ |
      ⟨-, hgate, l, h⟩
    · rw [h] at hret; cases hret
    · rw [h] at hret; cases hret
    · rw [h] at hret; cases hret
    · rw [h] at hret; cases hret
    · rw [hg] at hgate
      cases hgate

/-- C10 amended, at a concrete world: success count 0 and three successful
probes leave the gate polling. -/
theorem gate_blocks_below_wraparound_witness :
    (healthGate (loadConfig zeroCountEnv)
      [.response 200, .response 200, .response 200]).2 = false ∧
    (main (zeroCountWorld [.response 200, .response 200, .response 200])).2 ≠ Outcome.returned :=
  ⟨(gate_blocks_below_wraparound (zeroCountWorld [.response 200, .response 200, .response 200])
      (by decide) (by decide) (by decide)).1,
   (gate_blocks_below_wraparound (zeroCountWorld [.response 200, .response 200, .response 200])
      (by decide) (by decide) (by decide)).2.2.2⟩

end SimpleSqsd
